import Mathlib

/-!
# TaskManager-API

A shallow embedding of `src/main.go` (a gin HTTP service over one PostgreSQL
table `tasks`) and machine-checked statements about its four handlers
`createTask`, `getOneTaskById`, `deleteTask` and `getTasksByDueDate`.

Layout of the development:

* text helpers and the parts of the Go standard library the handlers call
  (`strconv.Atoi`, `fmt.Sprintf`, `time.Parse`, `encoding/json`);
* the store: the `tasks` table and the four SQL statements of the source;
* the functions of `src/main.go`, each under its own name;
* the theorems.

A handler is a function from the database handle and the request data to the
response written with `c.JSON` and the database handle afterwards.  The handle
keeps, next to the table, the list of statements that were sent to the server,
so "no store access" is the statement that the handle is returned unchanged.

What the source only calls is described by what it does for these calls:

* `strconv.Atoi`, `fmt.Sprintf("%d-%02d-%02d", ..)` and
  `time.Parse("2006-01-02", ..)` follow the Go library code;
* `ShouldBindJSON` is `encoding/json` decoding of the first JSON value of the
  body into `Task` (keys matched by name, then up to case; `null` skipped;
  `time.Time` from a string read by `parseStrictRFC3339`), with no validation
  afterwards since `Task` has no `binding` tags;
* the server is PostgreSQL behind `lib/pq`: parameters travel as text and take
  the type of the column they are compared with or stored in, so the id text
  is read as an `integer` (an error when it is not one) and a `time.Time` is
  stored in `due_date` as its date; a `date` comes back as midnight UTC;
  `QueryRow(..).Scan` gives `sql.ErrNoRows` on an empty result.

Failures of the connection itself are not part of the store.
-/

namespace TaskManager

/-! ## Text -/

instance instDecidableEqExcept {ε α : Type} [DecidableEq ε] [DecidableEq α] :
    DecidableEq (Except ε α)
  | .ok a, .ok b =>
    if h : a = b then isTrue (by rw [h]) else isFalse (fun h1 => by cases h1; exact h rfl)
  | .error a, .error b =>
    if h : a = b then isTrue (by rw [h]) else isFalse (fun h1 => by cases h1; exact h rfl)
  | .ok _, .error _ => isFalse (fun h1 => by cases h1)
  | .error _, .ok _ => isFalse (fun h1 => by cases h1)

/-- Go `isDigit`: an ASCII decimal digit. -/
def isDigit (c : Char) : Bool := decide ('0' ≤ c) && decide (c ≤ '9')

/-- Value of a decimal digit, `c - '0'`. -/
def digitVal (c : Char) : Nat := c.toNat - 48

/-- The digit table `"0123456789"[n]` used by `fmt`. -/
def digitChar (n : Nat) : Char :=
  match n with
  | 0 => '0' | 1 => '1' | 2 => '2' | 3 => '3' | 4 => '4'
  | 5 => '5' | 6 => '6' | 7 => '7' | 8 => '8' | _ => '9'

/-- The digit loop of `fmt.(*fmt).fmtInteger` in base 10: the last digit is
produced first and put in front of what is already there.  The first argument
bounds the number of iterations. -/
def fmtNatAux : Nat → Nat → List Char → List Char
  | 0, _, acc => acc
  | fuel + 1, u, acc =>
    if u < 10 then digitChar u :: acc
    else fmtNatAux fuel (u / 10) (digitChar (u % 10) :: acc)

/-- Decimal digits of a natural number, most significant first. -/
def fmtNat (u : Nat) : List Char := fmtNatAux (u + 1) u []

/-- Left padding with `'0'` up to `width` digits (the precision computed by
`fmtInteger` for the `0` flag). -/
def padZero (width : Nat) (digits : List Char) : List Char :=
  List.replicate (width - digits.length) '0' ++ digits

/-- The verb `%d` of `fmt.Sprintf` on an `int`. -/
def fmtD (n : Int) : List Char :=
  if n < 0 then '-' :: fmtNat n.natAbs else fmtNat n.natAbs

/-- The verb `%02d` of `fmt.Sprintf` on an `int`: width 2, zero padded; the
sign takes one of the two columns. -/
def fmt02d (n : Int) : List Char :=
  if n < 0 then '-' :: padZero 1 (fmtNat n.natAbs) else padZero 2 (fmtNat n.natAbs)

/-- The call `fmt.Sprintf("%d-%02d-%02d", year, month, day)`. -/
def sprintfDate (year month day : Int) : List Char :=
  fmtD year ++ '-' :: (fmt02d month ++ '-' :: fmt02d day)

/-- Value of a run of decimal digits, `none` when a character is not a digit. -/
def digitsValue : List Char → Nat → Option Nat
  | [], n => some n
  | c :: cs, n => if isDigit c then digitsValue cs (n * 10 + digitVal c) else none

/-- The function `strconv.Atoi` on a 64-bit platform: an optional sign, then
one or more decimal digits, the value within the range of `int`. -/
def Atoi (s : String) : Option Int :=
  match s.toList with
  | [] => none
  | '-' :: ds =>
    if ds.isEmpty then none
    else (digitsValue ds 0).bind fun n =>
      if n ≤ 9223372036854775808 then some (-(n : Int)) else none
  | '+' :: ds =>
    if ds.isEmpty then none
    else (digitsValue ds 0).bind fun n =>
      if n < 9223372036854775808 then some (n : Int) else none
  | ds =>
    (digitsValue ds 0).bind fun n =>
      if n < 9223372036854775808 then some (n : Int) else none

/-! ## Time -/

/-- A `time.Time` as the program can observe it: the calendar date and clock
reading in the value's own zone, and that zone's offset from UTC in seconds. -/
structure Time where
  year : Int
  month : Nat
  day : Nat
  hour : Nat
  minute : Nat
  second : Nat
  nsec : Nat
  offset : Int
deriving DecidableEq, Repr

/-- The zero `time.Time`: 1 January of year 1, 00:00:00 UTC. -/
def Time.zero : Time := ⟨1, 1, 1, 0, 0, 0, 0, 0⟩

/-- Go `time.isLeap`. -/
def isLeap (year : Int) : Bool :=
  year % 4 == 0 && (year % 100 != 0 || year % 400 == 0)

/-- Go `time.daysIn`: the number of days of month `m` in `year`. -/
def daysIn (m : Nat) (year : Int) : Nat :=
  if m == 2 && isLeap year then 29
  else
    match m with
    | 1 => 31 | 2 => 28 | 3 => 31 | 4 => 30 | 5 => 31 | 6 => 30
    | 7 => 31 | 8 => 31 | 9 => 30 | 10 => 31 | 11 => 30 | 12 => 31
    | _ => 0

/-- Go `time.getnum`: one or two leading digits; with `fixed` exactly two. -/
def getnum (s : List Char) (fixed : Bool) : Option (Nat × List Char) :=
  match s with
  | [] => none
  | [c0] =>
    if isDigit c0 then (if fixed then none else some (digitVal c0, []))
    else none
  | c0 :: c1 :: rest =>
    if isDigit c0 then
      if isDigit c1 then some (digitVal c0 * 10 + digitVal c1, rest)
      else if fixed then none
      else some (digitVal c0, c1 :: rest)
    else none

/-- Go `time.skip` for a layout prefix without blanks: the value has to start
with the prefix. -/
def skip : List Char → List Char → Option (List Char)
  | value, [] => some value
  | [], _ :: _ => none
  | v :: value, p :: pre => if v = p then skip value pre else none

/-- The last chunk of the layout `2006-01-02`: `02`, two digits, then the end
of the input; afterwards `time.Parse` checks the day against the month and
the year and builds the date at midnight UTC. -/
def parseDayChunk (year month : Nat) (v4 : List Char) : Option Time :=
  match getnum v4 true with
  | none => none
  | some (day, v5) =>
    if v5 ≠ [] then none
    else if day < 1 ∨ day > daysIn month year then none
    else some ⟨year, month, day, 0, 0, 0, 0, 0⟩

/-- The chunk `01` of the layout `2006-01-02`: two digits, a month within
1..12, followed by the literal `-` and the day chunk. -/
def parseMonthChunk (year : Nat) (v2 : List Char) : Option Time :=
  match getnum v2 true with
  | none => none
  | some (month, v3) =>
    if month ≤ 0 ∨ 12 < month then none
    else
      match skip v3 ['-'] with
      | none => none
      | some v4 => parseDayChunk year month v4

/-- The call `time.Parse("2006-01-02", value)`.  The layout is the chunks
`2006` (four digits), `-`, `01` (two digits, 1..12), `-`, `02` (two digits),
end of input; the day is checked against the month and year at the end.
Every error of `time.Parse` is `none`; the result is midnight UTC. -/
def timeParseDate (value : List Char) : Option Time :=
  match value with
  | y0 :: y1 :: y2 :: y3 :: v1 =>
    if isDigit y0 && isDigit y1 && isDigit y2 && isDigit y3 then
      let year : Nat :=
        ((digitVal y0 * 10 + digitVal y1) * 10 + digitVal y2) * 10 + digitVal y3
      match skip v1 ['-'] with
      | none => none
      | some v2 => parseMonthChunk year v2
    else none
  | _ => none

/-- Go `parseUint` inside `time.parseRFC3339`: all digits and within range. -/
def parseUint (s : List Char) (lo hi : Nat) : Option Nat :=
  match digitsValue s 0 with
  | none => none
  | some x => if x < lo ∨ hi < x then none else some x

/-- Go `time.parseNanoseconds` on the digits that follow the period: the
first nine digits, scaled to nanoseconds. -/
def parseNanoseconds (digits : List Char) : Nat :=
  let ds := digits.take 9
  ((digitsValue ds 0).getD 0) * 10 ^ (9 - ds.length)

/-- The zone part inside Go `parseRFC3339`: `Z`, or a sign, two digits of
hours (0..23), a colon and two digits of minutes (0..59).  The result is the
offset in seconds. -/
def parseZone (s : List Char) : Option Int :=
  match s with
  | ['Z'] => some 0
  | [sg, h0, h1, c, m0, m1] =>
    match parseUint [h0, h1] 0 23, parseUint [m0, m1] 0 59 with
    | some hr, some mm =>
      if c = ':' then
        if sg = '+' then some (((hr * 60 + mm) * 60 : Nat) : Int)
        else if sg = '-' then some (-(((hr * 60 + mm) * 60 : Nat) : Int))
        else none
      else none
    | _, _ => none
  | _ => none

/-- Go `time.parseRFC3339`, the strict reader `parseStrictRFC3339` tries
first: `2006-01-02T15:04:05` at fixed positions, an optional fraction of a
second after a period, and the zone of `parseZone`. -/
def parseRFC3339 (s : String) : Option Time :=
  match s.toList with
  | y0 :: y1 :: y2 :: y3 :: d1 :: m0 :: m1 :: d2 :: a0 :: a1 :: t ::
      h0 :: h1 :: c1 :: n0 :: n1 :: c2 :: s0 :: s1 :: rest =>
    match parseUint [y0, y1, y2, y3] 0 9999, parseUint [m0, m1] 1 12 with
    | some year, some month =>
      match parseUint [a0, a1] 1 (daysIn month year), parseUint [h0, h1] 0 23,
          parseUint [n0, n1] 0 59, parseUint [s0, s1] 0 59 with
      | some day, some hour, some minute, some second =>
        if d1 = '-' ∧ d2 = '-' ∧ t = 'T' ∧ c1 = ':' ∧ c2 = ':' then
          let frac : List Char :=
            match rest with
            | '.' :: f :: more => if isDigit f then f :: more.takeWhile isDigit else []
            | _ => []
          let zone : List Char :=
            match rest with
            | '.' :: f :: more => if isDigit f then more.dropWhile isDigit else rest
            | _ => rest
          match parseZone zone with
          | some off =>
            some ⟨year, month, day, hour, minute, second, parseNanoseconds frac, off⟩
          | none => none
        else none
      | _, _, _, _ => none
    | _, _ => none
  | _ => none

/-- Go `time.commaOrPeriod`. -/
def commaOrPeriod (c : Char) : Bool := c == '.' || c == ','

/-- The fraction of a second `time.Parse` reads after the chunk `05` when the
layout has none: a comma or a period and a run of digits.  The result is the
nanoseconds and what is left of the value. -/
def parseFraction (value : List Char) : Nat × List Char :=
  match value with
  | c :: f :: more =>
    if commaOrPeriod c && isDigit f then
      (parseNanoseconds (f :: more.takeWhile isDigit), more.dropWhile isDigit)
    else (0, value)
  | _ => (0, value)

/-- The chunk `Z07:00` of `time.Parse`: the letter `Z`, or a sign, two digits
of hours (at most 24), a colon and two digits of minutes (at most 60).  The
result is the offset in seconds and what is left of the value. -/
def parseZoneChunk (value : List Char) : Option (Int × List Char) :=
  match value with
  | 'Z' :: rest => some (0, rest)
  | sg :: h0 :: h1 :: c :: m0 :: m1 :: rest =>
    if c = ':' then
      match getnum [h0, h1] true, getnum [m0, m1] true with
      | some (hr, _), some (mm, _) =>
        if 24 < hr ∨ 60 < mm then none
        else if sg = '+' then some ((((hr * 60 + mm) * 60 : Nat) : Int), rest)
        else if sg = '-' then some (-(((hr * 60 + mm) * 60 : Nat) : Int), rest)
        else none
      | _, _ => none
    else none
  | _ => none

/-- The chunks `15:04:05Z07:00` of the layout `time.RFC3339` and the end of
the input: an hour of one or two digits below 24, a minute and a second of
two digits below 60, an optional fraction, the zone; then the day is checked
against the month and the year. -/
def parseClockChunks (year month day : Nat) (v6 : List Char) : Option Time :=
  match getnum v6 false with
  | none => none
  | some (hour, v7) =>
    if 24 ≤ hour then none
    else
      match skip v7 [':'] with
      | none => none
      | some v8 =>
        match getnum v8 true with
        | none => none
        | some (minute, v9) =>
          if 60 ≤ minute then none
          else
            match skip v9 [':'] with
            | none => none
            | some v10 =>
              match getnum v10 true with
              | none => none
              | some (second, v11) =>
                if 60 ≤ second then none
                else
                  match parseZoneChunk (parseFraction v11).2 with
                  | none => none
                  | some (off, v13) =>
                    if v13 ≠ [] then none
                    else if day < 1 ∨ day > daysIn month year then none
                    else
                      some ⟨year, month, day, hour, minute, second, (parseFraction v11).1, off⟩

/-- The call `time.Parse(time.RFC3339, value)`, layout
`2006-01-02T15:04:05Z07:00`: the year of four digits, `-`, the month of two
digits within 1..12, `-`, the day of two digits, `T`, and the chunks of
`parseClockChunks`.  Every error is `none`. -/
def timeParseRFC3339 (value : List Char) : Option Time :=
  match value with
  | y0 :: y1 :: y2 :: y3 :: v1 =>
    if isDigit y0 && isDigit y1 && isDigit y2 && isDigit y3 then
      let year : Nat :=
        ((digitVal y0 * 10 + digitVal y1) * 10 + digitVal y2) * 10 + digitVal y3
      match skip v1 ['-'] with
      | none => none
      | some v2 =>
        match getnum v2 true with
        | none => none
        | some (month, v3) =>
          if month ≤ 0 ∨ 12 < month then none
          else
            match skip v3 ['-'] with
            | none => none
            | some v4 =>
              match getnum v4 true with
              | none => none
              | some (day, v5) =>
                match skip v5 ['T'] with
                | none => none
                | some v6 => parseClockChunks year month day v6
    else none
  | _ => none

/-- Go `time.parseStrictRFC3339` (Go 1.20 and later), what
`time.Time.UnmarshalJSON` reads the content of the JSON string with: the
strict reader first and, when that fails, `time.Parse(time.RFC3339, ..)`,
whose result is returned as it is (the library leaves its strictness checks
switched off).  So an hour of one digit, a comma before the fraction and a
zone of `+24:00` or `+00:60` are read too; a date without a time of day is
not. -/
def parseStrictRFC3339 (s : String) : Option Time :=
  match parseRFC3339 s with
  | some t => some t
  | none => timeParseRFC3339 s.toList

/-! ## The entity -/

/-- The struct `Task` of the source. -/
structure Task where
  ID : Int
  Title : String
  Description : String
  DueDate : Time
  Tags : String
deriving DecidableEq, Repr

/-- The zero value of `Task`, what `var newTask Task` declares. -/
def Task.zero : Task := ⟨0, "", "", Time.zero, ""⟩

/-! ## JSON binding -/

/-- A well-formed JSON text, parsed.  `num` is a number written as an integer
(`-?digits`); `frac` is a number written with a fraction or an exponent. -/
inductive JSON where
  | null
  | bool (b : Bool)
  | num (n : Int)
  | frac (text : String)
  | str (s : String)
  | arr (items : List JSON)
  | obj (members : List (String × JSON))

/-- The fields of `Task`. -/
inductive Field where
  | ID
  | Title
  | Description
  | DueDate
  | Tags
deriving DecidableEq, Repr

/-- The name of a field in JSON, from its struct tag. -/
def Field.name : Field → String
  | .ID => "id"
  | .Title => "title"
  | .Description => "description"
  | .DueDate => "dueDate"
  | .Tags => "tags"

/-- The fields in declaration order. -/
def Field.all : List Field := [.ID, .Title, .Description, .DueDate, .Tags]

/-- The case folding `encoding/json` applies to object keys: ASCII letters to
upper case, and the two other letters that fold onto ASCII, U+017F (long s)
and U+212A (Kelvin sign). -/
def foldRune (c : Char) : Char :=
  if c = Char.ofNat 0x17F then 'S'
  else if c = Char.ofNat 0x212A then 'K'
  else c.toUpper

/-- The folded form of a key. -/
def foldName (s : String) : List Char := s.toList.map foldRune

/-- The field an object key is decoded into: the field with exactly that name,
or else the first one whose name is equal up to case; `none` for a key no
field matches (`encoding/json` skips its value). -/
def lookupField (key : String) : Option Field :=
  match Field.all.find? (fun f => f.name == key) with
  | some f => some f
  | none => Field.all.find? (fun f => foldName f.name == foldName key)

/-- Decoding of one JSON value into one field of a `Task`; `none` is the
error `json.Unmarshal` reports.  `null` leaves the field as it is; `ID int`
takes a number written as an integer within 64 bits; the `string` fields take
a JSON string; `DueDate time.Time` takes a string that `parseStrictRFC3339`
reads. -/
def setField (t : Task) (f : Field) (v : JSON) : Option Task :=
  match f, v with
  | _, .null => some t
  | .ID, .num n =>
    if -9223372036854775808 ≤ n ∧ n < 9223372036854775808 then some { t with ID := n }
    else none
  | .Title, .str s => some { t with Title := s }
  | .Description, .str s => some { t with Description := s }
  | .Tags, .str s => some { t with Tags := s }
  | .DueDate, .str s => (parseStrictRFC3339 s).map fun d => { t with DueDate := d }
  | _, _ => none

/-- Decoding of the members of a JSON object, in the order they are written;
a later member for the same field overwrites an earlier one. -/
def decodeMembers : List (String × JSON) → Task → Option Task
  | [], t => some t
  | (key, v) :: rest, t =>
    match lookupField key with
    | none => decodeMembers rest t
    | some f =>
      match setField t f v with
      | none => none
      | some t1 => decodeMembers rest t1

/-- The call `c.ShouldBindJSON(&newTask)` on a zero `Task`.  gin decodes with
`json.NewDecoder(body).Decode`, which reads one JSON value from the start of
the body and does not look at what follows it: the argument is that first
value, and `none` when the body does not start with a JSON value.  `Task` has
no `binding` tags, so nothing is validated after decoding.  The result `none`
is a non-nil error. -/
def ShouldBindJSON (body : Option JSON) : Option Task :=
  match body with
  | none => none
  | some .null => some Task.zero
  | some (.obj members) => decodeMembers members Task.zero
  | some _ => none

/-! ## The store -/

/-- A value of the SQL type `date`. -/
structure Date where
  year : Int
  month : Nat
  day : Nat
deriving DecidableEq, Repr

/-- Modelled from the spec: the table of the repository, whose definition is
not among its sources, `tasks(id PK autoincrement, title text, description
text, due_date date, tags text)`; `id` is an `integer`.  No column holds
NULL: the program never writes one. -/
structure Row where
  id : Int
  title : String
  description : String
  due_date : Date
  tags : String
deriving DecidableEq, Repr

/-- The persisted state: the rows of `tasks` and the next value of the
sequence behind `id`. -/
structure Store where
  rows : List Row
  nextId : Int
deriving DecidableEq, Repr

/-- The four statements of the source with their arguments. -/
inductive Stmt where
  | insertTask (title description : String) (dueDate : Time) (tags : String)
  | selectTaskById (id : String)
  | deleteTaskById (id : String)
  | selectTasksByDueDate (dueDate : Time)
deriving DecidableEq, Repr

/-- The errors the server answers with, by SQLSTATE. -/
inductive PqError where
  | invalidTextRepresentation
  | numericValueOutOfRange
  | sequenceLimitExceeded
  | uniqueViolation
deriving DecidableEq, Repr

/-- A Go `error` value of the program. -/
inductive GoError where
  | ErrNoRows
  | pq (e : PqError)
  | wrap (text : String) (err : GoError)
deriving DecidableEq, Repr

/-- What the server sends back: the rows of the result and the number of rows
the command touched. -/
structure Reply where
  rows : List Row
  affected : Nat
deriving DecidableEq, Repr

/-- C `isspace`. -/
def isSpace (c : Char) : Bool :=
  c == ' ' || c == '\t' || c == '\n' || c == '\r' || c == Char.ofNat 11 || c == Char.ofNat 12

/-- Range of the SQL type `integer`. -/
def inInt4 (n : Int) : Bool := decide (-2147483648 ≤ n) && decide (n ≤ 2147483647)

/-- An optional sign in front of a number: whether it is `-`, and the rest. -/
def stripSign : List Char → Bool × List Char
  | '-' :: r => (true, r)
  | '+' :: r => (false, r)
  | t => (false, t)

/-- How the server reads a text parameter that stands for an `integer`
(`WHERE id = $1`, PostgreSQL `int4in`): blanks, an optional sign, one or more
decimal digits, blanks.  Any other text is the error `22P02`, a value outside
the type the error `22003`. -/
def int4in (s : String) : Except PqError Int :=
  let t := stripSign (s.toList.dropWhile isSpace)
  let ds := t.2.takeWhile isDigit
  let rest := (t.2.dropWhile isDigit).dropWhile isSpace
  if ds.isEmpty || !rest.isEmpty then .error .invalidTextRepresentation
  else
    let n : Int := ((digitsValue ds 0).getD 0 : Nat)
    let v : Int := if t.1 then -n else n
    if inInt4 v then .ok v else .error .numericValueOutOfRange

/-- How the server reads a `time.Time` parameter that stands for a `date`:
the driver writes the date and clock reading of the value in its own zone,
and the server keeps the date. -/
def Time.toDate (t : Time) : Date := ⟨t.year, t.month, t.day⟩

/-- Execution of one statement.  An insert draws the next value of the
sequence (which stays drawn when the insert then fails on the primary key)
and appends the row. -/
def Store.exec (s : Store) : Stmt → Except PqError Reply × Store
  | .insertTask title description dueDate tags =>
    if !inInt4 s.nextId then (.error .sequenceLimitExceeded, s)
    else if s.rows.any (fun r => r.id == s.nextId) then
      (.error .uniqueViolation, { s with nextId := s.nextId + 1 })
    else
      let row : Row := ⟨s.nextId, title, description, dueDate.toDate, tags⟩
      (.ok ⟨[row], 1⟩, { rows := s.rows ++ [row], nextId := s.nextId + 1 })
  | .selectTaskById id =>
    match int4in id with
    | .error e => (.error e, s)
    | .ok k => (.ok ⟨s.rows.filter (fun r => r.id == k), 0⟩, s)
  | .deleteTaskById id =>
    match int4in id with
    | .error e => (.error e, s)
    | .ok k =>
      (.ok ⟨[], (s.rows.filter (fun r => r.id == k)).length⟩,
        { s with rows := s.rows.filter (fun r => !(r.id == k)) })
  | .selectTasksByDueDate dueDate =>
    (.ok ⟨s.rows.filter (fun r => r.due_date == dueDate.toDate), 0⟩, s)

/-- The handle `db *sql.DB`: the store behind it and the statements sent
through it so far, oldest first. -/
structure DB where
  store : Store
  sent : List Stmt
deriving DecidableEq, Repr

/-- Sending one statement through the handle. -/
def DB.send (db : DB) (q : Stmt) : Except PqError Reply × DB :=
  ((db.store.exec q).1, { store := (db.store.exec q).2, sent := db.sent ++ [q] })

/-- The primary key of `tasks`: no two rows share an `id`. -/
def Store.PrimaryKey (s : Store) : Prop := (s.rows.map Row.id).Nodup

instance (s : Store) : Decidable s.PrimaryKey := by
  unfold Store.PrimaryKey; infer_instance

/-- How the driver hands a `date` to Go: midnight, offset zero. -/
def Date.toTime (d : Date) : Time := ⟨d.year, d.month, d.day, 0, 0, 0, 0, 0⟩

/-- The call `Scan(&task.ID, &task.Title, &task.Description, &task.DueDate,
&task.Tags)` on one row. -/
def scanTask (r : Row) : Task := ⟨r.id, r.title, r.description, r.due_date.toTime, r.tags⟩

/-! ## Responses -/

/-- The value given to `c.JSON`. -/
inductive Body where
  | error (message : String)
  | errorOf (err : GoError)
  | msg (text : String)
  | id (n : Int)
  | task (t : Task)
  | tasks (ts : List Task)
deriving DecidableEq, Repr

/-- A call `c.JSON(status, body)`. -/
structure Response where
  status : Nat
  body : Body
deriving DecidableEq, Repr

/-! ## The functions of `src/main.go` -/

/-- `createTaskInDB`: the result is the returned error (`none` is `nil`), the
task behind the pointer afterwards, and the handle. -/
def createTaskInDB (db : DB) (task : Task) : Option GoError × Task × DB :=
  match db.send (.insertTask task.Title task.Description task.DueDate task.Tags) with
  | (.error e, db1) => (some (.wrap "ошибка при создании задачи: " (.pq e)), task, db1)
  | (.ok reply, db1) =>
    match reply.rows with
    | [] => (some (.wrap "ошибка при создании задачи: " .ErrNoRows), task, db1)
    | r :: _ => (none, { task with ID := r.id }, db1)

/-- `createTask`. -/
def createTask (db : DB) (body : Option JSON) : Response × DB :=
  match ShouldBindJSON body with
  | none => (⟨400, .error "Невалидный JSON"⟩, db)
  | some newTask =>
    match createTaskInDB db newTask with
    | (some err, _, db1) => (⟨500, .errorOf err⟩, db1)
    | (none, newTask1, db1) => (⟨200, .id newTask1.ID⟩, db1)

/-- `getOneTaskById`. -/
def getOneTaskById (db : DB) (id : String) : Response × DB :=
  match db.send (.selectTaskById id) with
  | (.error _, db1) => (⟨500, .error "Ошибка при чтении"⟩, db1)
  | (.ok reply, db1) =>
    match reply.rows with
    | [] => (⟨404, .error "Нет такого id\x27шника"⟩, db1)
    | r :: _ => (⟨200, .task (scanTask r)⟩, db1)

/-- `deleteTaskFromDB`: the pair `(int64, error)` as `Except`, an error
standing for `(0, err)`. -/
def deleteTaskFromDB (db : DB) (taskId : String) : Except GoError Nat × DB :=
  match db.send (.deleteTaskById taskId) with
  | (.error e, db1) => (.error (.wrap "error  " (.pq e)), db1)
  | (.ok reply, db1) => (.ok reply.affected, db1)

/-- `deleteTask`. -/
def deleteTask (db : DB) (taskId : String) : Response × DB :=
  match deleteTaskFromDB db taskId with
  | (.error _, db1) => (⟨500, .error "Ошибка при чтении"⟩, db1)
  | (.ok affectedRows, db1) =>
    if affectedRows = 0 then (⟨404, .error "задача не найдена"⟩, db1)
    else (⟨200, .msg "ОК"⟩, db1)

/-- The loop `for rows.Next() { ...; tasks = append(tasks, task) }`. -/
def scanRows : List Row → List Task → List Task
  | [], tasks => tasks
  | r :: rows, tasks => scanRows rows (tasks ++ [scanTask r])

/-- `getTasksByDueDateFromDB`. -/
def getTasksByDueDateFromDB (db : DB) (dueDate : Time) : Except GoError (List Task) × DB :=
  match db.send (.selectTasksByDueDate dueDate) with
  | (.error e, db1) => (.error (.wrap "Ошибка: " (.pq e)), db1)
  | (.ok reply, db1) => (.ok (scanRows reply.rows []), db1)

/-- `respondWithError`. -/
def respondWithError (code : Nat) (message : String) : Response := ⟨code, .error message⟩

/-- `getTasksByDueDate`. -/
def getTasksByDueDate (db : DB) (yearStr monthStr dayStr : String) : Response × DB :=
  match Atoi yearStr with
  | none => (respondWithError 400 "Невалидные данные(год)", db)
  | some year =>
    match Atoi monthStr with
    | none => (respondWithError 400 "Невалидные данные(месяц)", db)
    | some month =>
      match Atoi dayStr with
      | none => (respondWithError 400 "Невалидные данные(день)", db)
      | some day =>
        match timeParseDate (sprintfDate year month day) with
        | none => (respondWithError 400 "Невалидный формат даты", db)
        | some dueDate =>
          match getTasksByDueDateFromDB db dueDate with
          | (.error err, db1) => (⟨500, .errorOf err⟩, db1)
          | (.ok tasks, db1) =>
            if tasks.length = 0 then (⟨404, .msg "Нет задач на этот день"⟩, db1)
            else (⟨200, .tasks tasks⟩, db1)


/-! ## Vocabulary of the theorems -/

/-- The decimal text of an integer, as `%d` writes it. -/
def decimal (i : Int) : String := String.mk (fmtD i)

/-- A month and a day that exist in the calendar of year `y`. -/
def ValidDate (y m d : Int) : Prop :=
  1 ≤ m ∧ m ≤ 12 ∧ 1 ≤ d ∧ d ≤ (daysIn m.toNat y : Nat)

instance (y m d : Int) : Decidable (ValidDate y m d) := by
  unfold ValidDate; infer_instance

/-- A task with its id set to zero: the part of a task that the insert
reads. -/
def Task.clearID (t : Task) : Task := { t with ID := 0 }

/-- The handle after `n` calls of `deleteTask` with the same id. -/
def deleteTaskRepeat (db : DB) (taskId : String) : Nat → DB
  | 0 => db
  | n + 1 => (deleteTask (deleteTaskRepeat db taskId n) taskId).2

/-- A fresh handle on an empty table whose sequence is at 1. -/
def emptyDB : DB := ⟨⟨[], 1⟩, []⟩

/-- A fresh handle on a table of three rows. -/
def sampleDB : DB :=
  ⟨⟨[⟨1, "A", "", ⟨2024, 3, 1⟩, "x"⟩, ⟨2, "B", "b", ⟨999, 3, 1⟩, ""⟩,
      ⟨3, "C", "c", ⟨2024, 3, 1⟩, "y"⟩], 4⟩, []⟩

/-- The JSON object `{title, description, dueDate, tags}` with string values. -/
def taskPayload (title description dueDate tags : String) : Option JSON :=
  some (.obj [("title", .str title), ("description", .str description),
    ("dueDate", .str dueDate), ("tags", .str tags)])

/-- The handle after `POST /task` with the payload `{title: "A", description:
"", dueDate, tags: "x"}` on the empty store. -/
def afterCreate (dueDate : String) : DB :=
  (createTask emptyDB (taskPayload "A" "" dueDate "x")).2

/-- The handle after the `GET /task/1` that follows. -/
def afterGet (dueDate : String) : DB := (getOneTaskById (afterCreate dueDate) "1").2

/-- The handle after the `GET /due/2024/3/1` that follows. -/
def afterDue (dueDate : String) : DB :=
  (getTasksByDueDate (afterGet dueDate) "2024" "3" "1").2

/-- The handle after the `DELETE /task/1` that follows. -/
def afterDelete (dueDate : String) : DB := (deleteTask (afterDue dueDate) "1").2

/-! ## Decimal text -/

theorem fmtNatAux_acc (fuel u : Nat) (acc : List Char) :
    fmtNatAux fuel u acc = fmtNatAux fuel u [] ++ acc := by
  induction fuel generalizing u acc with
  | zero => simp [fmtNatAux]
  | succ fuel ih =>
    unfold fmtNatAux
    by_cases h : u < 10
    · simp [h]
    · simp only [h, if_false]
      rw [ih (u / 10) (digitChar (u % 10) :: acc), ih (u / 10) [digitChar (u % 10)]]
      simp

theorem fmtNatAux_fuel (f1 f2 u : Nat) (acc : List Char) (h1 : u < f1) (h2 : u < f2) :
    fmtNatAux f1 u acc = fmtNatAux f2 u acc := by
  induction f1 generalizing f2 u acc with
  | zero => omega
  | succ f1 ih =>
    cases f2 with
    | zero => omega
    | succ f2 =>
      unfold fmtNatAux
      by_cases h : u < 10
      · simp [h]
      · simp only [h, if_false]
        exact ih f2 (u / 10) _ (by omega) (by omega)

theorem fmtNat_lt (u : Nat) (h : u < 10) : fmtNat u = [digitChar u] := by
  simp [fmtNat, fmtNatAux, h]

theorem fmtNat_ge (u : Nat) (h : 10 ≤ u) :
    fmtNat u = fmtNat (u / 10) ++ [digitChar (u % 10)] := by
  have h1 : ¬ u < 10 := by omega
  have e : fmtNat u = fmtNatAux u (u / 10) [digitChar (u % 10)] := by
    simp [fmtNat, fmtNatAux, h1]
  rw [e, fmtNatAux_acc, fmtNatAux_fuel u (u / 10 + 1) (u / 10) [] (by omega) (by omega)]
  rfl

theorem isDigit_digitChar (k : Nat) : isDigit (digitChar k) = true := by
  unfold digitChar
  split <;> decide

theorem digitVal_digitChar (k : Nat) (h : k < 10) : digitVal (digitChar k) = k := by
  interval_cases k <;> rfl

theorem isDigit_ne_dash (c : Char) (h : isDigit c = true) : c ≠ '-' := by
  rintro rfl
  exact absurd h (by decide)

theorem fmtNat_digits (u : Nat) : ∀ c ∈ fmtNat u, isDigit c = true := by
  induction u using Nat.strong_induction_on with
  | _ u ih =>
    by_cases h : u < 10
    · rw [fmtNat_lt u h]
      intro c hc
      simp at hc
      rw [hc]; exact isDigit_digitChar u
    · rw [fmtNat_ge u (by omega)]
      intro c hc
      rcases List.mem_append.1 hc with hc | hc
      · exact ih (u / 10) (by omega) c hc
      · simp at hc
        rw [hc]; exact isDigit_digitChar _

theorem fmtNat_length (k u : Nat) (h : 10 ^ k ≤ u) : k + 1 ≤ (fmtNat u).length := by
  induction k generalizing u with
  | zero =>
    by_cases h1 : u < 10
    · simp [fmtNat_lt u h1]
    · rw [fmtNat_ge u (by omega)]; simp
  | succ k ih =>
    have h10 : 10 ≤ u := by
      have : 10 ^ 1 ≤ 10 ^ (k + 1) := Nat.pow_le_pow_right (by norm_num) (by omega)
      omega
    rw [fmtNat_ge u h10]
    have : 10 ^ k ≤ u / 10 := by
      rw [Nat.le_div_iff_mul_le (by norm_num)]
      rw [pow_succ] at h; exact h
    have := ih (u / 10) this
    simp; omega

theorem fmtNat_two (u : Nat) (h1 : 10 ≤ u) (h2 : u < 100) :
    fmtNat u = [digitChar (u / 10), digitChar (u % 10)] := by
  rw [fmtNat_ge u h1, fmtNat_lt (u / 10) (by omega)]; rfl

theorem fmtNat_four (u : Nat) (h1 : 1000 ≤ u) (h2 : u < 10000) :
    fmtNat u = [digitChar (u / 1000), digitChar (u / 100 % 10), digitChar (u / 10 % 10),
      digitChar (u % 10)] := by
  rw [fmtNat_ge u (by omega), fmtNat_ge (u / 10) (by omega), fmtNat_ge (u / 10 / 10) (by omega),
    fmtNat_lt (u / 10 / 10 / 10) (by omega)]
  have e1 : u / 10 / 10 / 10 = u / 1000 := by omega
  have e2 : u / 10 / 10 % 10 = u / 100 % 10 := by omega
  simp [e1, e2]


/-! ## `time.Parse` on the text `Sprintf` builds -/

theorem daysIn_le (m : Nat) (y : Int) : daysIn m y ≤ 31 := by
  unfold daysIn
  split
  · omega
  · split <;> omega

theorem fmtNat_three_up (u : Nat) (h : 100 ≤ u) :
    ∃ a b c rest, fmtNat u = a :: b :: c :: rest ∧ isDigit a = true ∧ isDigit b = true ∧
      isDigit c = true := by
  have hl := fmtNat_length 2 u (by simpa using h)
  have hd := fmtNat_digits u
  rcases hf : fmtNat u with _ | ⟨a, _ | ⟨b, _ | ⟨c, rest⟩⟩⟩
  all_goals rw [hf] at hl hd
  all_goals simp at hl
  exact ⟨a, b, c, rest, rfl, hd a (by simp), hd b (by simp), hd c (by simp)⟩

theorem fmtNat_five_up (u : Nat) (h : 10000 ≤ u) :
    ∃ a b c d e rest, fmtNat u = a :: b :: c :: d :: e :: rest ∧ isDigit a = true ∧
      isDigit b = true ∧ isDigit c = true ∧ isDigit d = true ∧ isDigit e = true := by
  have hl := fmtNat_length 4 u (by simpa using h)
  have hd := fmtNat_digits u
  rcases hf : fmtNat u with _ | ⟨a, _ | ⟨b, _ | ⟨c, _ | ⟨d, _ | ⟨e, rest⟩⟩⟩⟩⟩
  all_goals rw [hf] at hl hd
  all_goals simp at hl
  exact ⟨a, b, c, d, e, rest, rfl, hd a (by simp), hd b (by simp), hd c (by simp),
    hd d (by simp), hd e (by simp)⟩

/-- The text of `%02d` in the three cases that matter to `getnum`. -/
theorem fmt02d_cases (n : Int) :
    (n < 0 ∧ ∃ rest, fmt02d n = '-' :: rest) ∨
    (0 ≤ n ∧ n < 100 ∧ ∃ a b, fmt02d n = [a, b] ∧ isDigit a = true ∧ isDigit b = true ∧
      digitVal a * 10 + digitVal b = n.toNat) ∨
    (100 ≤ n ∧ ∃ a b c rest, fmt02d n = a :: b :: c :: rest ∧ isDigit a = true ∧
      isDigit b = true ∧ isDigit c = true) := by
  by_cases h0 : n < 0
  · left; exact ⟨h0, padZero 1 (fmtNat n.natAbs), by simp [fmt02d, h0]⟩
  · right
    by_cases h100 : n < 100
    · left
      refine ⟨by omega, h100, ?_⟩
      by_cases h10 : n.natAbs < 10
      · refine ⟨'0', digitChar n.natAbs, ?_, by decide, isDigit_digitChar _, ?_⟩
        · simp [fmt02d, h0, fmtNat_lt _ h10, padZero]
        · rw [digitVal_digitChar _ h10]; simp [digitVal]; omega
      · refine ⟨digitChar (n.natAbs / 10), digitChar (n.natAbs % 10), ?_, isDigit_digitChar _,
          isDigit_digitChar _, ?_⟩
        · simp [fmt02d, h0, fmtNat_two _ (by omega : 10 ≤ n.natAbs) (by omega), padZero]
        · rw [digitVal_digitChar _ (by omega), digitVal_digitChar _ (by omega)]; omega
    · right
      refine ⟨by omega, ?_⟩
      obtain ⟨a, b, c, rest, hf, ha, hb, hc⟩ := fmtNat_three_up n.natAbs (by omega)
      exact ⟨a, b, c, rest, by simp [fmt02d, h0, hf, padZero], ha, hb, hc⟩

theorem parseDayChunk_fmt02d (year month : Nat) (d : Int) :
    parseDayChunk year month (fmt02d d) =
      if 1 ≤ d ∧ d ≤ (daysIn month year : Nat) then
        some ⟨year, month, d.toNat, 0, 0, 0, 0, 0⟩
      else none := by
  have hle := daysIn_le month year
  rcases fmt02d_cases d with ⟨h, rest, hf⟩ | ⟨h0, h100, a, b, hf, ha, hb, hv⟩ |
      ⟨h, a, b, c, rest, hf, ha, hb, hc⟩
  · have hneg : ¬ (1 ≤ d ∧ d ≤ (daysIn month year : Nat)) := by omega
    rw [if_neg hneg, hf]
    cases rest <;> simp [parseDayChunk, getnum, show isDigit '-' = false by decide]
  · rw [hf]
    simp only [parseDayChunk, getnum, ha, hb, if_true, hv]
    by_cases hc : 1 ≤ d ∧ d ≤ (daysIn month year : Nat)
    · have h1 : ¬ (d.toNat < 1 ∨ d.toNat > daysIn month year) := by omega
      rw [if_pos hc, if_neg (by simp), if_neg h1]
    · have h1 : d.toNat < 1 ∨ d.toNat > daysIn month year := by omega
      rw [if_neg hc, if_neg (by simp), if_pos h1]
  · have hneg : ¬ (1 ≤ d ∧ d ≤ (daysIn month year : Nat)) := by omega
    rw [if_neg hneg, hf]
    simp [parseDayChunk, getnum, ha, hb]

theorem parseMonthChunk_fmt02d (year : Nat) (m d : Int) :
    parseMonthChunk year (fmt02d m ++ '-' :: fmt02d d) =
      if 1 ≤ m ∧ m ≤ 12 then parseDayChunk year m.toNat (fmt02d d) else none := by
  rcases fmt02d_cases m with ⟨h, rest, hf⟩ | ⟨h0, h100, a, b, hf, ha, hb, hv⟩ |
      ⟨h, a, b, c, rest, hf, ha, hb, hc⟩
  · have hneg : ¬ (1 ≤ m ∧ m ≤ 12) := by omega
    rw [if_neg hneg, hf]
    cases rest <;> simp [parseMonthChunk, getnum, show isDigit '-' = false by decide]
  · rw [hf]
    simp only [parseMonthChunk, getnum, ha, hb, if_true, hv, List.cons_append, List.nil_append]
    by_cases hc : 1 ≤ m ∧ m ≤ 12
    · have h1 : ¬ (m.toNat ≤ 0 ∨ 12 < m.toNat) := by omega
      rw [if_pos hc, if_neg h1]
      simp [skip]
    · have h1 : m.toNat ≤ 0 ∨ 12 < m.toNat := by omega
      rw [if_neg hc, if_pos h1]
  · have hneg : ¬ (1 ≤ m ∧ m ≤ 12) := by omega
    rw [if_neg hneg, hf]
    have hcd := isDigit_ne_dash c hc
    simp [parseMonthChunk, getnum, ha, hb, skip, hcd]


theorem timeParseDate_nondigit (a b c d : Char) (s : List Char)
    (h : isDigit a = false ∨ isDigit b = false ∨ isDigit c = false ∨ isDigit d = false) :
    timeParseDate (a :: b :: c :: d :: s) = none := by
  rcases h with h | h | h | h <;> simp [timeParseDate, h]

theorem timeParseDate_prefix_dash (p s : List Char) (h : p.length < 4) :
    timeParseDate (p ++ '-' :: s) = none := by
  have hd : isDigit '-' = false := by decide
  rcases p with _ | ⟨a, _ | ⟨b, _ | ⟨c, _ | ⟨d, p⟩⟩⟩⟩
  · rcases s with _ | ⟨x, _ | ⟨y, _ | ⟨z, s⟩⟩⟩
    · rfl
    · rfl
    · rfl
    · exact timeParseDate_nondigit _ _ _ _ _ (Or.inl hd)
  · rcases s with _ | ⟨x, _ | ⟨y, s⟩⟩
    · rfl
    · rfl
    · exact timeParseDate_nondigit _ _ _ _ _ (Or.inr (Or.inl hd))
  · rcases s with _ | ⟨x, s⟩
    · rfl
    · exact timeParseDate_nondigit _ _ _ _ _ (Or.inr (Or.inr (Or.inl hd)))
  · exact timeParseDate_nondigit _ _ _ _ _ (Or.inr (Or.inr (Or.inr hd)))
  · simp at h; omega

theorem fmtNat_length_lt (u : Nat) (h : u < 1000) : (fmtNat u).length < 4 := by
  by_cases h1 : u < 10
  · simp [fmtNat_lt u h1]
  · by_cases h2 : u < 100
    · simp [fmtNat_two u (by omega) h2]
    · rw [fmtNat_ge u (by omega), fmtNat_two (u / 10) (by omega) (by omega)]
      simp

/-- What `time.Parse("2006-01-02", ·)` makes of the text built by
`fmt.Sprintf("%d-%02d-%02d", y, m, d)`: it succeeds exactly for a year of four
digits and a month and a day of the calendar, with that date at midnight UTC. -/
theorem timeParseDate_sprintfDate (y m d : Int) :
    timeParseDate (sprintfDate y m d) =
      if 1000 ≤ y ∧ y ≤ 9999 ∧ 1 ≤ m ∧ m ≤ 12 ∧ 1 ≤ d ∧ d ≤ (daysIn m.toNat y : Nat) then
        some ⟨y, m.toNat, d.toNat, 0, 0, 0, 0, 0⟩
      else none := by
  by_cases hneg : y < 0
  · have hc : ¬ (1000 ≤ y ∧ y ≤ 9999 ∧ 1 ≤ m ∧ m ≤ 12 ∧ 1 ≤ d ∧ d ≤ (daysIn m.toNat y : Nat)) := by
      omega
    rw [if_neg hc]
    have : sprintfDate y m d = [] ++ '-' :: (fmtNat y.natAbs ++ '-' :: (fmt02d m ++ '-' :: fmt02d d)) := by
      simp [sprintfDate, fmtD, hneg]
    rw [this]
    exact timeParseDate_prefix_dash _ _ (by simp)
  · have hfd : fmtD y = fmtNat y.natAbs := by simp [fmtD, hneg]
    by_cases hlo : y < 1000
    · have hc : ¬ (1000 ≤ y ∧ y ≤ 9999 ∧ 1 ≤ m ∧ m ≤ 12 ∧ 1 ≤ d ∧ d ≤ (daysIn m.toNat y : Nat)) := by
        omega
      rw [if_neg hc]
      unfold sprintfDate
      rw [hfd]
      exact timeParseDate_prefix_dash _ _ (fmtNat_length_lt _ (by omega))
    · by_cases hhi : 9999 < y
      · have hc : ¬ (1000 ≤ y ∧ y ≤ 9999 ∧ 1 ≤ m ∧ m ≤ 12 ∧ 1 ≤ d ∧
            d ≤ (daysIn m.toNat y : Nat)) := by omega
        rw [if_neg hc]
        obtain ⟨a, b, c, e, f, rest, hf, ha, hb, hc1, he, hf1⟩ :=
          fmtNat_five_up y.natAbs (by omega)
        unfold sprintfDate
        rw [hfd, hf]
        have hfd1 := isDigit_ne_dash f hf1
        simp [timeParseDate, ha, hb, hc1, he, skip, hfd1]
      · have hy : (y.natAbs : Int) = y := by omega
        have h4 := fmtNat_four y.natAbs (by omega) (by omega)
        unfold sprintfDate
        rw [hfd, h4]
        have hval : ((digitVal (digitChar (y.natAbs / 1000)) * 10 +
            digitVal (digitChar (y.natAbs / 100 % 10))) * 10 +
            digitVal (digitChar (y.natAbs / 10 % 10))) * 10 +
            digitVal (digitChar (y.natAbs % 10)) = y.natAbs := by
          rw [digitVal_digitChar _ (by omega), digitVal_digitChar _ (by omega),
            digitVal_digitChar _ (by omega), digitVal_digitChar _ (by omega)]
          omega
        simp only [List.cons_append, List.nil_append, timeParseDate, isDigit_digitChar,
          Bool.and_self, if_true, skip, hval]
        rw [parseMonthChunk_fmt02d]
        by_cases hm : 1 ≤ m ∧ m ≤ 12
        · rw [if_pos hm, parseDayChunk_fmt02d, hy]
          by_cases hdd : 1 ≤ d ∧ d ≤ (daysIn m.toNat y : Nat)
          · rw [if_pos hdd, if_pos ⟨by omega, by omega, hm.1, hm.2, hdd.1, hdd.2⟩]
          · rw [if_neg hdd, if_neg (fun h => hdd ⟨h.2.2.2.2.1, h.2.2.2.2.2⟩)]
        · rw [if_neg hm, if_neg (fun h => hm ⟨h.2.2.1, h.2.2.2.1⟩)]


/-! ## The store and the handlers -/

theorem scanRows_eq (rows : List Row) (tasks : List Task) :
    scanRows rows tasks = tasks ++ rows.map scanTask := by
  induction rows generalizing tasks with
  | nil => simp [scanRows]
  | cons r rows ih => simp [scanRows, ih]

theorem getTasksByDueDateFromDB_eq (db : DB) (dueDate : Time) :
    getTasksByDueDateFromDB db dueDate =
      (.ok ((db.store.rows.filter (fun r => r.due_date == dueDate.toDate)).map scanTask),
        ⟨db.store, db.sent ++ [.selectTasksByDueDate dueDate]⟩) := by
  simp [getTasksByDueDateFromDB, DB.send, Store.exec, scanRows_eq]

/-! ## Due-date lookup -/

/-- C1: for every store and every three integers read from the route that do
not form a date of the calendar (month outside 1..12 or day outside the
month), `getTasksByDueDate` answers 400 and returns the database handle as it
was: no statement is sent, `getTasksByDueDateFromDB` is not reached. -/
theorem getTasksByDueDate_invalid_date (db : DB) (yearStr monthStr dayStr : String)
    (y m d : Int) (hy : Atoi yearStr = some y) (hm : Atoi monthStr = some m)
    (hd : Atoi dayStr = some d) (hbad : ¬ ValidDate y m d) :
    getTasksByDueDate db yearStr monthStr dayStr =
        (⟨400, .error "Невалидный формат даты"⟩, db) ∧
      (getTasksByDueDate db yearStr monthStr dayStr).1.status = 400 ∧
      (getTasksByDueDate db yearStr monthStr dayStr).2.sent = db.sent := by
  have hp : timeParseDate (sprintfDate y m d) = none := by
    rw [timeParseDate_sprintfDate, if_neg]
    intro h
    exact hbad ⟨h.2.2.1, h.2.2.2.1, h.2.2.2.2.1, h.2.2.2.2.2⟩
  have e : getTasksByDueDate db yearStr monthStr dayStr =
      (⟨400, .error "Невалидный формат даты"⟩, db) := by
    simp [getTasksByDueDate, hy, hm, hd, hp, respondWithError]
  rw [e]
  exact ⟨rfl, rfl, rfl⟩

theorem getTasksByDueDate_invalid_date_witness :
    Atoi "2024" = some 2024 ∧ Atoi "02" = some 2 ∧ Atoi "30" = some 30 ∧
      ¬ ValidDate 2024 2 30 ∧
      (getTasksByDueDate sampleDB "2024" "02" "30").1.status = 400 ∧
      (getTasksByDueDate sampleDB "2024" "02" "30").2.sent = [] :=
  ⟨by decide, by decide, by decide, by decide,
    (getTasksByDueDate_invalid_date sampleDB "2024" "02" "30" 2024 2 30
      (by decide) (by decide) (by decide) (by decide)).2⟩

/-- C2, as the claim states it, fails: 1 March 999 and 1 January 10000 are
dates of the calendar with a year of at least 1, the store holds a task due
on 1 March 999, and both lookups are answered 400 without a statement sent. -/
theorem getTasksByDueDate_year_not_four_digits :
    ValidDate 999 3 1 ∧ (1 : Int) ≤ 999 ∧
      (∃ r ∈ sampleDB.store.rows, r.due_date = ⟨999, 3, 1⟩) ∧
      getTasksByDueDate sampleDB "999" "3" "1" =
        (⟨400, .error "Невалидный формат даты"⟩, sampleDB) ∧
      ValidDate 10000 1 1 ∧
      getTasksByDueDate sampleDB "10000" "1" "1" =
        (⟨400, .error "Невалидный формат даты"⟩, sampleDB) := by
  refine ⟨by decide, by decide, ⟨⟨2, "B", "b", ⟨999, 3, 1⟩, ""⟩, by decide, rfl⟩, by decide,
    by decide, by decide⟩

/-- C2, amended: for every store and every date of the calendar whose year
has four digits (1000 ≤ y ≤ 9999), the lookup passes validation;
`getTasksByDueDateFromDB` is called with that date, sends one statement and
returns exactly the stored tasks due on that date, in store order, each once
(the empty sequence when there is none); `getTasksByDueDate` answers 200 with
that sequence when it is not empty and 404 when it is. -/
theorem getTasksByDueDate_valid_date (db : DB) (yearStr monthStr dayStr : String)
    (y m d : Int) (hy : Atoi yearStr = some y) (hm : Atoi monthStr = some m)
    (hd : Atoi dayStr = some d) (hvalid : ValidDate y m d)
    (hyear : 1000 ≤ y ∧ y ≤ 9999) :
    getTasksByDueDateFromDB db ⟨y, m.toNat, d.toNat, 0, 0, 0, 0, 0⟩ =
        (.ok ((db.store.rows.filter
            (fun r => r.due_date == ⟨y, m.toNat, d.toNat⟩)).map scanTask),
          ⟨db.store, db.sent ++ [.selectTasksByDueDate ⟨y, m.toNat, d.toNat, 0, 0, 0, 0, 0⟩]⟩) ∧
      getTasksByDueDate db yearStr monthStr dayStr =
        (if (db.store.rows.filter (fun r => r.due_date == ⟨y, m.toNat, d.toNat⟩)) = [] then
            ⟨404, .msg "Нет задач на этот день"⟩
          else
            ⟨200, .tasks ((db.store.rows.filter
              (fun r => r.due_date == ⟨y, m.toNat, d.toNat⟩)).map scanTask)⟩,
          ⟨db.store, db.sent ++ [.selectTasksByDueDate ⟨y, m.toNat, d.toNat, 0, 0, 0, 0, 0⟩]⟩) := by
  have hp : timeParseDate (sprintfDate y m d) = some ⟨y, m.toNat, d.toNat, 0, 0, 0, 0, 0⟩ := by
    rw [timeParseDate_sprintfDate, if_pos]
    exact ⟨hyear.1, hyear.2, hvalid.1, hvalid.2.1, hvalid.2.2.1, hvalid.2.2.2⟩
  refine ⟨getTasksByDueDateFromDB_eq db _, ?_⟩
  simp only [getTasksByDueDate, hy, hm, hd, hp, getTasksByDueDateFromDB_eq, Time.toDate]
  by_cases he : (db.store.rows.filter (fun r => r.due_date == ⟨y, m.toNat, d.toNat⟩)) = []
  · simp [he]
  · simp [he]

theorem getTasksByDueDate_valid_date_witness :
    ValidDate 2024 3 1 ∧
      getTasksByDueDate sampleDB "2024" "3" "1" =
        (⟨200, .tasks [⟨1, "A", "", ⟨2024, 3, 1, 0, 0, 0, 0, 0⟩, "x"⟩,
            ⟨3, "C", "c", ⟨2024, 3, 1, 0, 0, 0, 0, 0⟩, "y"⟩]⟩,
          ⟨sampleDB.store, [.selectTasksByDueDate ⟨2024, 3, 1, 0, 0, 0, 0, 0⟩]⟩) :=
  ⟨by decide,
    (getTasksByDueDate_valid_date sampleDB "2024" "3" "1" 2024 3 1
      (by decide) (by decide) (by decide) (by decide) (by decide)).2⟩


/-! ## Reading back the decimal text of an id -/

theorem digitsValue_append (l : List Char) (c : Char) (acc : Nat) :
    digitsValue (l ++ [c]) acc =
      (digitsValue l acc).bind fun v => if isDigit c then some (v * 10 + digitVal c) else none := by
  induction l generalizing acc with
  | nil => simp [digitsValue]
  | cons x l ih =>
    simp only [List.cons_append, digitsValue]
    by_cases hx : isDigit x = true
    · simp [hx, ih]
    · simp [hx]

theorem digitsValue_fmtNat (u : Nat) : digitsValue (fmtNat u) 0 = some u := by
  induction u using Nat.strong_induction_on with
  | _ u ih =>
    by_cases h : u < 10
    · rw [fmtNat_lt u h]
      simp [digitsValue, isDigit_digitChar, digitVal_digitChar u h]
    · rw [fmtNat_ge u (by omega), digitsValue_append, ih (u / 10) (by omega)]
      simp [isDigit_digitChar, digitVal_digitChar (u % 10) (by omega)]
      omega

theorem fmtNat_cons (u : Nat) : ∃ c cs, fmtNat u = c :: cs ∧ isDigit c = true := by
  have hd := fmtNat_digits u
  rcases hf : fmtNat u with _ | ⟨c, cs⟩
  · by_cases h : u < 10
    · rw [fmtNat_lt u h] at hf; simp at hf
    · rw [fmtNat_ge u (by omega)] at hf; simp at hf
  · rw [hf] at hd; exact ⟨c, cs, rfl, hd c (by simp)⟩

theorem isSpace_of_isDigit (c : Char) (h : isDigit c = true) : isSpace c = false := by
  by_contra hne
  have hs : isSpace c = true := by simpa using hne
  simp only [isSpace, Bool.or_eq_true, beq_iff_eq] at hs
  rcases hs with ((((rfl | rfl) | rfl) | rfl) | rfl) | rfl <;> exact absurd h (by decide)

theorem stripSign_digit (c : Char) (cs : List Char) (h : isDigit c = true) :
    stripSign (c :: cs) = (false, c :: cs) := by
  unfold stripSign
  split
  · rename_i heq
    simp at heq
    rw [heq.1] at h
    exact absurd h (by decide)
  · rename_i heq
    simp at heq
    rw [heq.1] at h
    exact absurd h (by decide)
  · rfl

theorem takeWhile_digits (l : List Char) (h : ∀ c ∈ l, isDigit c = true) :
    l.takeWhile isDigit = l := by
  induction l with
  | nil => rfl
  | cons x l ih =>
    simp [List.takeWhile, h x (by simp), ih (fun c hc => h c (by simp [hc]))]

theorem dropWhile_digits (l : List Char) (h : ∀ c ∈ l, isDigit c = true) :
    l.dropWhile isDigit = [] := by
  induction l with
  | nil => rfl
  | cons x l ih =>
    simp [List.dropWhile, h x (by simp), ih (fun c hc => h c (by simp [hc]))]

/-- The server reads the decimal text of an `integer` back as that integer. -/
theorem int4in_decimal (i : Int) (h : inInt4 i = true) : int4in (decimal i) = .ok i := by
  obtain ⟨c, cs, hf, hc⟩ := fmtNat_cons i.natAbs
  have hdig := fmtNat_digits i.natAbs
  have hval := digitsValue_fmtNat i.natAbs
  have htw := takeWhile_digits _ hdig
  have hdw := dropWhile_digits _ hdig
  by_cases hneg : i < 0
  · have e : (decimal i).toList = '-' :: fmtNat i.natAbs := by simp [decimal, fmtD, hneg]
    have hi : -(i.natAbs : Int) = i := by omega
    simp only [int4in, e, List.dropWhile, show isSpace '-' = false by decide, stripSign, htw, hdw]
    rw [hf] at hval
    have hi2 : -|i| = i := by rw [abs_of_neg hneg]; omega
    simp [hf, hval, hi2, h]
  · have e : (decimal i).toList = c :: cs := by simp [decimal, fmtD, hneg, hf]
    have hi : (i.natAbs : Int) = i := by omega
    rw [hf] at htw hdw hval
    simp only [int4in, e, List.dropWhile, isSpace_of_isDigit c hc, stripSign_digit c cs hc, htw,
      hdw]
    have hi2 : |i| = i := abs_of_nonneg (by omega)
    simp [hval, hi2, h]


/-- Every `int` is read by `strconv.Atoi` from its decimal text. -/
theorem Atoi_decimal (n : Int) (h1 : -9223372036854775808 ≤ n) (h2 : n < 9223372036854775808) :
    Atoi (decimal n) = some n := by
  obtain ⟨c, cs, hf, hc⟩ := fmtNat_cons n.natAbs
  have hval := digitsValue_fmtNat n.natAbs
  by_cases hneg : n < 0
  · have e : (decimal n).toList = '-' :: fmtNat n.natAbs := by simp [decimal, fmtD, hneg]
    have hle : n.natAbs ≤ 9223372036854775808 := by omega
    have hi : -(n.natAbs : Int) = n := by omega
    unfold Atoi
    rw [e]
    simp only [hval, Option.bind, hle, if_true, hi]
    simp [hf]
  · have e : (decimal n).toList = c :: cs := by simp [decimal, fmtD, hneg, hf]
    have hlt : n.natAbs < 9223372036854775808 := by omega
    have hi : (n.natAbs : Int) = n := by omega
    rw [hf] at hval
    unfold Atoi
    rw [e]
    split
    · rename_i heq; simp at heq
    · rename_i heq
      simp at heq
      rw [heq.1] at hc
      exact absurd hc (by decide)
    · rename_i heq
      simp at heq
      rw [heq.1] at hc
      exact absurd hc (by decide)
    · simp only [hval, Option.bind, hlt, if_true, hi]

/-! ## The store functions, unfolded -/

theorem createTaskInDB_eq (db : DB) (task : Task) :
    createTaskInDB db task =
      if inInt4 db.store.nextId = false then
        (some (.wrap "ошибка при создании задачи: " (.pq .sequenceLimitExceeded)), task,
          ⟨db.store, db.sent ++
            [.insertTask task.Title task.Description task.DueDate task.Tags]⟩)
      else if db.store.rows.any (fun r => r.id == db.store.nextId) = true then
        (some (.wrap "ошибка при создании задачи: " (.pq .uniqueViolation)), task,
          ⟨{ db.store with nextId := db.store.nextId + 1 }, db.sent ++
            [.insertTask task.Title task.Description task.DueDate task.Tags]⟩)
      else
        (none, { task with ID := db.store.nextId },
          ⟨⟨db.store.rows ++
              [⟨db.store.nextId, task.Title, task.Description, task.DueDate.toDate, task.Tags⟩],
            db.store.nextId + 1⟩,
            db.sent ++ [.insertTask task.Title task.Description task.DueDate task.Tags]⟩) := by
  by_cases h1 : inInt4 db.store.nextId = false
  · simp [createTaskInDB, DB.send, Store.exec, h1]
  · by_cases h2 : db.store.rows.any (fun r => r.id == db.store.nextId) = true
    · rw [if_neg h1, if_pos h2]
      have h1t : inInt4 db.store.nextId = true := by simpa using h1
      simp only [createTaskInDB, DB.send, Store.exec, h1t, h2]
      rfl
    · rw [if_neg h1, if_neg h2]
      have h1t : inInt4 db.store.nextId = true := by simpa using h1
      have h2f : db.store.rows.any (fun r => r.id == db.store.nextId) = false := by simpa using h2
      simp only [createTaskInDB, DB.send, Store.exec, h1t, h2f]
      rfl

theorem getOneTaskById_eq (db : DB) (id : String) :
    getOneTaskById db id =
      match int4in id with
      | .error _ => (⟨500, .error "Ошибка при чтении"⟩, ⟨db.store, db.sent ++ [.selectTaskById id]⟩)
      | .ok k =>
        match db.store.rows.filter (fun r => r.id == k) with
        | [] => (⟨404, .error "Нет такого id\x27шника"⟩,
            ⟨db.store, db.sent ++ [.selectTaskById id]⟩)
        | r :: _ => (⟨200, .task (scanTask r)⟩, ⟨db.store, db.sent ++ [.selectTaskById id]⟩) := by
  unfold getOneTaskById DB.send Store.exec
  cases h : int4in id with
  | error e => simp [h]
  | ok k =>
    cases h2 : db.store.rows.filter (fun r => r.id == k) <;> simp [h, h2]

theorem deleteTaskFromDB_eq (db : DB) (taskId : String) :
    deleteTaskFromDB db taskId =
      match int4in taskId with
      | .error e => (.error (.wrap "error  " (.pq e)),
          ⟨db.store, db.sent ++ [.deleteTaskById taskId]⟩)
      | .ok k => (.ok (db.store.rows.filter (fun r => r.id == k)).length,
          ⟨{ db.store with rows := db.store.rows.filter (fun r => !(r.id == k)) },
            db.sent ++ [.deleteTaskById taskId]⟩) := by
  unfold deleteTaskFromDB DB.send Store.exec
  cases h : int4in taskId <;> simp [h]

theorem filter_absent (rows : List Row) (k : Int) (h : ∀ r ∈ rows, r.id ≠ k) :
    rows.filter (fun r => r.id == k) = [] ∧ rows.filter (fun r => !(r.id == k)) = rows := by
  constructor
  · rw [List.filter_eq_nil_iff]
    intro r hr
    simpa using h r hr
  · rw [List.filter_eq_self]
    intro r hr
    simpa using h r hr

/-! ## Create, then read -/

/-- C3, as the claim states it, fails: a task due 1 March 2024 at 10:30 UTC is
created with id 1, and reading id 1 back answers 200 with a task due 1 March
2024 at 00:00 UTC, which is not the `dueDate` that was put in. -/
theorem create_then_get_drops_time_of_day :
    (createTaskInDB emptyDB ⟨0, "A", "", ⟨2024, 3, 1, 10, 30, 0, 0, 0⟩, "x"⟩).1 = none ∧
      (createTaskInDB emptyDB ⟨0, "A", "", ⟨2024, 3, 1, 10, 30, 0, 0, 0⟩, "x"⟩).2.1.ID = 1 ∧
      decimal 1 = "1" ∧
      (getOneTaskById
          (createTaskInDB emptyDB ⟨0, "A", "", ⟨2024, 3, 1, 10, 30, 0, 0, 0⟩, "x"⟩).2.2 "1").1 =
        ⟨200, .task ⟨1, "A", "", ⟨2024, 3, 1, 0, 0, 0, 0, 0⟩, "x"⟩⟩ ∧
      (⟨2024, 3, 1, 0, 0, 0, 0, 0⟩ : Time) ≠ ⟨2024, 3, 1, 10, 30, 0, 0, 0⟩ := by
  decide

/-- C3, amended: for every store and every task, if `createTaskInDB` succeeds
and assigns id `i`, then `getOneTaskById` with the decimal text of `i` on the
resulting store answers 200 with a task whose id is `i`, whose title,
description and tags are those put in, and whose `dueDate` is the calendar day
of the one put in, at 00:00 UTC; so the task read back is the input with its
id set whenever the input's `dueDate` is a day at 00:00 UTC. -/
theorem create_then_get (db : DB) (task : Task) (h : (createTaskInDB db task).1 = none) :
    (getOneTaskById (createTaskInDB db task).2.2
        (decimal (createTaskInDB db task).2.1.ID)).1 =
        ⟨200, .task ⟨(createTaskInDB db task).2.1.ID, task.Title, task.Description,
          task.DueDate.toDate.toTime, task.Tags⟩⟩ ∧
      (task.DueDate.toDate.toTime = task.DueDate →
        (getOneTaskById (createTaskInDB db task).2.2
          (decimal (createTaskInDB db task).2.1.ID)).1 =
          ⟨200, .task { task with ID := (createTaskInDB db task).2.1.ID }⟩) := by
  have hc := createTaskInDB_eq db task
  by_cases h1 : inInt4 db.store.nextId = false
  · rw [if_pos h1] at hc; rw [hc] at h; simp at h
  · by_cases h2 : db.store.rows.any (fun r => r.id == db.store.nextId) = true
    · rw [if_neg h1, if_pos h2] at hc; rw [hc] at h; simp at h
    · rw [if_neg h1, if_neg h2] at hc
      have h1t : inInt4 db.store.nextId = true := by simpa using h1
      have hno : ∀ r ∈ db.store.rows, r.id ≠ db.store.nextId := by
        intro r hr heq
        apply h2
        rw [List.any_eq_true]
        exact ⟨r, hr, by simpa using heq⟩
      have hfil : (db.store.rows ++
          [(⟨db.store.nextId, task.Title, task.Description, task.DueDate.toDate, task.Tags⟩ :
            Row)]).filter (fun r => r.id == db.store.nextId) =
          [(⟨db.store.nextId, task.Title, task.Description, task.DueDate.toDate, task.Tags⟩ :
            Row)] := by
        rw [List.filter_append, (filter_absent _ _ hno).1]
        simp
      have key : (getOneTaskById (createTaskInDB db task).2.2
          (decimal (createTaskInDB db task).2.1.ID)).1 =
          ⟨200, .task ⟨(createTaskInDB db task).2.1.ID, task.Title, task.Description,
            task.DueDate.toDate.toTime, task.Tags⟩⟩ := by
        rw [hc, getOneTaskById_eq]
        simp only [int4in_decimal _ h1t, hfil]
        rfl
      refine ⟨key, fun hd => ?_⟩
      rw [key, hd]

theorem create_then_get_witness :
    (createTaskInDB sampleDB ⟨77, "T", "d", ⟨2025, 12, 31, 0, 0, 0, 0, 0⟩, "t"⟩).1 = none ∧
      (getOneTaskById
          (createTaskInDB sampleDB ⟨77, "T", "d", ⟨2025, 12, 31, 0, 0, 0, 0, 0⟩, "t"⟩).2.2
          (decimal
            (createTaskInDB sampleDB ⟨77, "T", "d", ⟨2025, 12, 31, 0, 0, 0, 0, 0⟩, "t"⟩).2.1.ID)).1 =
        ⟨200, .task ⟨(createTaskInDB sampleDB
            ⟨77, "T", "d", ⟨2025, 12, 31, 0, 0, 0, 0, 0⟩, "t"⟩).2.1.ID, "T", "d",
          ⟨2025, 12, 31, 0, 0, 0, 0, 0⟩, "t"⟩⟩ :=
  ⟨by decide,
    (create_then_get sampleDB ⟨77, "T", "d", ⟨2025, 12, 31, 0, 0, 0, 0, 0⟩, "t"⟩ (by decide)).1⟩

/-! ## Delete -/

theorem nodup_split (before after : List Row) (r : Row)
    (h : ((before ++ r :: after).map Row.id).Nodup) :
    (∀ x ∈ before, x.id ≠ r.id) ∧ (∀ x ∈ after, x.id ≠ r.id) := by
  rw [List.map_append, List.map_cons, List.nodup_append] at h
  obtain ⟨_, h2, h3⟩ := h
  rw [List.nodup_cons] at h2
  constructor
  · intro x hx heq
    exact h3 (List.mem_map_of_mem Row.id hx) (by rw [heq]; simp)
  · intro x hx heq
    exact h2.1 (by rw [← heq]; exact List.mem_map_of_mem Row.id hx)

/-- C4: for every store that keeps its primary key and every id text the store
reads as the id of a stored task, `deleteTaskFromDB` returns 1 and no error,
the table afterwards is the table before without that one row (the rows
before it and after it are as they were, the sequence too), and
`getOneTaskById` on the same id then answers 404. -/
theorem deleteTaskFromDB_existing (db : DB) (taskId : String) (k : Int)
    (hpk : db.store.PrimaryKey) (hid : int4in taskId = .ok k)
    (hex : ∃ r ∈ db.store.rows, r.id = k) :
    (deleteTaskFromDB db taskId).1 = .ok 1 ∧
      (∃ before r after, db.store.rows = before ++ r :: after ∧ r.id = k ∧
        (deleteTaskFromDB db taskId).2.store.rows = before ++ after) ∧
      (deleteTaskFromDB db taskId).2.store.nextId = db.store.nextId ∧
      (getOneTaskById (deleteTaskFromDB db taskId).2 taskId).1 =
        ⟨404, .error "Нет такого id\x27шника"⟩ := by
  obtain ⟨r, hr, hrk⟩ := hex
  obtain ⟨before, after, hsplit⟩ := List.append_of_mem hr
  have hnd : ((before ++ r :: after).map Row.id).Nodup := by
    rw [← hsplit]; exact hpk
  obtain ⟨hb, ha⟩ := nodup_split before after r hnd
  rw [hrk] at hb ha
  have hfeq : db.store.rows.filter (fun x => x.id == k) = [r] := by
    rw [hsplit, List.filter_append, List.filter_cons, (filter_absent _ _ hb).1,
      (filter_absent _ _ ha).1]
    simp [hrk]
  have hfne : db.store.rows.filter (fun x => !(x.id == k)) = before ++ after := by
    rw [hsplit, List.filter_append, List.filter_cons, (filter_absent _ _ hb).2,
      (filter_absent _ _ ha).2]
    simp [hrk]
  have e : deleteTaskFromDB db taskId =
      (.ok 1, ⟨⟨before ++ after, db.store.nextId⟩, db.sent ++ [.deleteTaskById taskId]⟩) := by
    rw [deleteTaskFromDB_eq]
    simp only [hid, hfeq, hfne]
    rfl
  rw [e]
  refine ⟨rfl, ⟨before, r, after, hsplit, hrk, rfl⟩, rfl, ?_⟩
  rw [getOneTaskById_eq]
  simp only [hid]
  have : (before ++ after).filter (fun x => x.id == k) = [] := by
    rw [List.filter_append, (filter_absent _ _ hb).1, (filter_absent _ _ ha).1]; rfl
  simp only [this]

theorem deleteTaskFromDB_existing_witness :
    sampleDB.store.PrimaryKey ∧ int4in "2" = .ok 2 ∧
      (deleteTaskFromDB sampleDB "2").1 = .ok 1 ∧
      (deleteTaskFromDB sampleDB "2").2.store.nextId = 4 ∧
      (getOneTaskById (deleteTaskFromDB sampleDB "2").2 "2").1 =
        ⟨404, .error "Нет такого id\x27шника"⟩ :=
  have h := deleteTaskFromDB_existing sampleDB "2" 2 (by decide) (by decide)
    ⟨⟨2, "B", "b", ⟨999, 3, 1⟩, ""⟩, by decide, rfl⟩
  ⟨by decide, by decide, h.1, h.2.2.1, h.2.2.2⟩


theorem deleteTask_eq (db : DB) (taskId : String) :
    deleteTask db taskId =
      match deleteTaskFromDB db taskId with
      | (.error _, db1) => (⟨500, .error "Ошибка при чтении"⟩, db1)
      | (.ok 0, db1) => (⟨404, .error "задача не найдена"⟩, db1)
      | (.ok (_ + 1), db1) => (⟨200, .msg "ОК"⟩, db1) := by
  unfold deleteTask
  rcases deleteTaskFromDB db taskId with ⟨r, db1⟩
  rcases r with e | n
  · rfl
  · cases n <;> simp

theorem deleteTask_absent (db : DB) (taskId : String) (k : Int) (hid : int4in taskId = .ok k)
    (habs : ∀ r ∈ db.store.rows, r.id ≠ k) :
    deleteTaskFromDB db taskId = (.ok 0, ⟨db.store, db.sent ++ [.deleteTaskById taskId]⟩) ∧
      deleteTask db taskId =
        (⟨404, .error "задача не найдена"⟩, ⟨db.store, db.sent ++ [.deleteTaskById taskId]⟩) := by
  have e : deleteTaskFromDB db taskId =
      (.ok 0, ⟨db.store, db.sent ++ [.deleteTaskById taskId]⟩) := by
    rw [deleteTaskFromDB_eq]
    simp only [hid, (filter_absent _ _ habs).1, (filter_absent _ _ habs).2]
    rfl
  refine ⟨e, ?_⟩
  rw [deleteTask_eq, e]

theorem deleteTaskRepeat_store (db : DB) (taskId : String) (k : Int)
    (hid : int4in taskId = .ok k) (habs : ∀ r ∈ db.store.rows, r.id ≠ k) (n : Nat) :
    (deleteTaskRepeat db taskId n).store = db.store := by
  induction n with
  | zero => rfl
  | succ n ih =>
    have habs1 : ∀ r ∈ (deleteTaskRepeat db taskId n).store.rows, r.id ≠ k := by
      rw [ih]; exact habs
    simp only [deleteTaskRepeat]
    rw [(deleteTask_absent _ taskId k hid habs1).2]
    exact ih

/-- C5, as the claim states it, fails: the id `abc` matches no stored task (the
store cannot even read it as an id, and no row is removed), and
`deleteTaskFromDB` returns an error, not `(0, nil)`, which `deleteTask` turns
into 500, not 404. -/
theorem deleteTask_non_numeric_id :
    int4in "abc" = .error .invalidTextRepresentation ∧
      (deleteTaskFromDB sampleDB "abc").1 =
        .error (.wrap "error  " (.pq .invalidTextRepresentation)) ∧
      (deleteTaskFromDB sampleDB "abc").2.store = sampleDB.store ∧
      (deleteTask sampleDB "abc").1 = ⟨500, .error "Ошибка при чтении"⟩ := by
  decide

/-- C5, amended: for every store and every id text the store reads as an
integer that is the id of no stored task, `deleteTaskFromDB` returns 0 and no
error and leaves the table and the sequence as they were, `deleteTask` answers
404, and after any number of such calls the next one does the same on the same
store; and for every store, a `deleteTask` that follows a `deleteTask` with the
same integer id text answers 404. -/
theorem deleteTask_absent_idempotent (db : DB) (taskId : String) (k : Int)
    (hid : int4in taskId = .ok k) (habs : ∀ r ∈ db.store.rows, r.id ≠ k) :
    (∀ n : Nat,
        (deleteTaskFromDB (deleteTaskRepeat db taskId n) taskId).1 = .ok 0 ∧
        (deleteTaskFromDB (deleteTaskRepeat db taskId n) taskId).2.store = db.store ∧
        (deleteTask (deleteTaskRepeat db taskId n) taskId).1 =
          ⟨404, .error "задача не найдена"⟩ ∧
        (deleteTask (deleteTaskRepeat db taskId n) taskId).2.store = db.store) ∧
      (∀ db0 : DB, (deleteTask (deleteTask db0 taskId).2 taskId).1 =
        ⟨404, .error "задача не найдена"⟩) := by
  constructor
  · intro n
    have hs := deleteTaskRepeat_store db taskId k hid habs n
    have habs1 : ∀ r ∈ (deleteTaskRepeat db taskId n).store.rows, r.id ≠ k := by
      rw [hs]; exact habs
    obtain ⟨e1, e2⟩ := deleteTask_absent _ taskId k hid habs1
    rw [e1, e2]
    exact ⟨rfl, hs, rfl, hs⟩
  · intro db0
    have habs0 : ∀ r ∈ (deleteTask db0 taskId).2.store.rows, r.id ≠ k := by
      intro r hr
      rw [deleteTask_eq, deleteTaskFromDB_eq] at hr
      simp only [hid] at hr
      have hr2 : r ∈ db0.store.rows.filter (fun x => !(x.id == k)) := by
        cases hl : (db0.store.rows.filter (fun x => x.id == k)).length <;>
          (rw [hl] at hr; exact hr)
      have := (List.mem_filter.1 hr2).2
      simpa using this
    rw [(deleteTask_absent _ taskId k hid habs0).2]

theorem deleteTask_absent_idempotent_witness :
    int4in "7" = .ok 7 ∧
      (deleteTask (deleteTaskRepeat sampleDB "7" 3) "7").1 =
        ⟨404, .error "задача не найдена"⟩ ∧
      (deleteTask (deleteTaskRepeat sampleDB "7" 3) "7").2.store = sampleDB.store :=
  have h := (deleteTask_absent_idempotent sampleDB "7" 7 (by decide) (by decide)).1 3
  ⟨by decide, h.2.2.1, h.2.2.2⟩

/-! ## Read by id -/

/-- C6, as the claim states it, fails: the id `abc` is not numeric and matches
no stored task, the store answers the read with an error that is not "no
rows", and `getOneTaskById` answers 500, not 404; no statement is refused
before it is sent. -/
theorem getOneTaskById_non_numeric_id :
    int4in "abc" = .error .invalidTextRepresentation ∧
      (sampleDB.send (.selectTaskById "abc")).1 = .error .invalidTextRepresentation ∧
      getOneTaskById sampleDB "abc" =
        (⟨500, .error "Ошибка при чтении"⟩, ⟨sampleDB.store, [.selectTaskById "abc"]⟩) := by
  decide

/-- C6, amended: for every store and every id text the store reads as an
integer that is the id of no stored task, `getOneTaskById` answers 404; for
every id text, the answer is never 400, and it is 500 exactly when the store
answers the read with an error, which is exactly when the text is not an
`integer`; "no rows" is never answered 500. -/
theorem getOneTaskById_absent (db : DB) (id : String) (k : Int)
    (hid : int4in id = .ok k) (habs : ∀ r ∈ db.store.rows, r.id ≠ k) :
    (getOneTaskById db id).1 = ⟨404, .error "Нет такого id\x27шника"⟩ ∧
      (∀ id1 : String, (getOneTaskById db id1).1.status ≠ 400) ∧
      (∀ id1 : String, (getOneTaskById db id1).1.status = 500 ↔
        ∃ e, (db.send (.selectTaskById id1)).1 = .error e) ∧
      (∀ id1 : String, (getOneTaskById db id1).1.status = 500 ↔
        ∃ e, int4in id1 = .error e) := by
  have hshape : ∀ id1 : String,
      ((getOneTaskById db id1).1.status = 500 ↔ ∃ e, int4in id1 = .error e) ∧
      (getOneTaskById db id1).1.status ≠ 400 := by
    intro id1
    rw [getOneTaskById_eq]
    cases h : int4in id1 with
    | error e => simp
    | ok k1 =>
      cases h2 : db.store.rows.filter (fun r => r.id == k1) <;> simp [h2]
  refine ⟨?_, fun id1 => (hshape id1).2, fun id1 => ?_, fun id1 => (hshape id1).1⟩
  · rw [getOneTaskById_eq]
    simp only [hid, (filter_absent _ _ habs).1]
  · rw [(hshape id1).1]
    simp only [DB.send, Store.exec]
    cases h : int4in id1 <;> simp

theorem getOneTaskById_absent_witness :
    int4in "7" = .ok 7 ∧
      (getOneTaskById sampleDB "7").1 = ⟨404, .error "Нет такого id\x27шника"⟩ :=
  ⟨by decide, (getOneTaskById_absent sampleDB "7" 7 (by decide) (by decide)).1⟩

/-! ## The answer of `deleteTask` -/

/-- C7, as the claim states it, fails: after a delete that removed one row the
answer is 200 with a `msg` of the two Cyrillic letters U+041E and U+041A, not
the two ASCII letters U+004F and U+004B. -/
theorem deleteTask_msg_not_ascii :
    (deleteTaskFromDB sampleDB "1").1 = .ok 1 ∧
      (deleteTask sampleDB "1").1 =
        ⟨200, .msg (String.mk [Char.ofNat 0x41E, Char.ofNat 0x41A])⟩ ∧
      (deleteTask sampleDB "1").1 ≠
        ⟨200, .msg (String.mk [Char.ofNat 0x4F, Char.ofNat 0x4B])⟩ := by
  decide

/-- C7, amended: the answer of `deleteTask` is a function of the result of
`deleteTaskFromDB`: 500 when that is an error, 404 when it is 0 rows, and
otherwise 200 with the body `msg` whose value is the two Cyrillic letters
U+041E and U+041A. -/
theorem deleteTask_response (db : DB) (taskId : String) :
    deleteTask db taskId =
      match deleteTaskFromDB db taskId with
      | (.error _, db1) => (⟨500, .error "Ошибка при чтении"⟩, db1)
      | (.ok 0, db1) => (⟨404, .error "задача не найдена"⟩, db1)
      | (.ok (_ + 1), db1) =>
        (⟨200, .msg (String.mk [Char.ofNat 0x41E, Char.ofNat 0x41A])⟩, db1) :=
  deleteTask_eq db taskId


/-! ## Create -/

theorem createTask_sent (db : DB) (body : Option JSON) (t : Task)
    (h : ShouldBindJSON body = some t) :
    (createTask db body).1.status ≠ 400 ∧
      (createTask db body).2.sent =
        db.sent ++ [.insertTask t.Title t.Description t.DueDate t.Tags] := by
  unfold createTask
  rw [h]
  simp only [createTaskInDB_eq]
  split_ifs <;> simp

theorem decodeMembers_append (ms ms2 : List (String × JSON)) (t : Task) :
    decodeMembers (ms ++ ms2) t = (decodeMembers ms t).bind (decodeMembers ms2) := by
  induction ms generalizing t with
  | nil => simp [decodeMembers]
  | cons kv ms ih =>
    obtain ⟨key, v⟩ := kv
    simp only [List.cons_append, decodeMembers]
    cases hl : lookupField key with
    | none => simp only []; exact ih t
    | some f =>
      cases hs : setField t f v with
      | none => simp [hs]
      | some t2 => simp only [hs]; exact ih t2

theorem createTask_bound (db : DB) (body : Option JSON) (t : Task)
    (h : ShouldBindJSON body = some t) :
    createTask db body =
      if inInt4 db.store.nextId = false then
        (⟨500, .errorOf (.wrap "ошибка при создании задачи: " (.pq .sequenceLimitExceeded))⟩,
          ⟨db.store, db.sent ++ [.insertTask t.Title t.Description t.DueDate t.Tags]⟩)
      else if db.store.rows.any (fun r => r.id == db.store.nextId) = true then
        (⟨500, .errorOf (.wrap "ошибка при создании задачи: " (.pq .uniqueViolation))⟩,
          ⟨{ db.store with nextId := db.store.nextId + 1 },
            db.sent ++ [.insertTask t.Title t.Description t.DueDate t.Tags]⟩)
      else
        (⟨200, .id db.store.nextId⟩,
          ⟨⟨db.store.rows ++
              [⟨db.store.nextId, t.Title, t.Description, t.DueDate.toDate, t.Tags⟩],
            db.store.nextId + 1⟩,
            db.sent ++ [.insertTask t.Title t.Description t.DueDate t.Tags]⟩) := by
  simp only [createTask, h, createTaskInDB_eq]
  split_ifs <;> rfl

theorem clearID_eq_iff (a b : Task) :
    a.clearID = b.clearID ↔
      a.Title = b.Title ∧ a.Description = b.Description ∧ a.DueDate = b.DueDate ∧
        a.Tags = b.Tags := by
  cases a; cases b; simp [Task.clearID]

theorem setField_clearID (t t1 : Task) (f : Field) (v : JSON) (h : t.clearID = t1.clearID) :
    (setField t f v).map Task.clearID = (setField t1 f v).map Task.clearID := by
  obtain ⟨h1, h2, h3, h4⟩ := (clearID_eq_iff t t1).1 h
  cases t; cases t1
  simp only at h1 h2 h3 h4
  subst h1 h2 h3 h4
  cases f <;> cases v <;> simp [setField, Task.clearID]
  all_goals rfl

theorem decodeMembers_clearID (ms : List (String × JSON)) (t t1 : Task)
    (h : t.clearID = t1.clearID) :
    (decodeMembers ms t).map Task.clearID = (decodeMembers ms t1).map Task.clearID := by
  induction ms generalizing t t1 with
  | nil => simp [decodeMembers, h]
  | cons kv ms ih =>
    obtain ⟨key, v⟩ := kv
    simp only [decodeMembers]
    cases hl : lookupField key with
    | none => simp only []; exact ih t t1 h
    | some f =>
      have hs := setField_clearID t t1 f v h
      cases h1 : setField t f v with
      | none =>
        cases h2 : setField t1 f v with
        | none => simp [h1, h2]
        | some b => rw [h1, h2] at hs; simp at hs
      | some a =>
        cases h2 : setField t1 f v with
        | none => rw [h1, h2] at hs; simp at hs
        | some b =>
          rw [h1, h2] at hs
          simp only [Option.map_some', Option.some.injEq] at hs
          simp only [h1, h2]
          exact ih a b hs

theorem createTask_clearID (db : DB) (b1 b2 : Option JSON)
    (h : (ShouldBindJSON b1).map Task.clearID = (ShouldBindJSON b2).map Task.clearID) :
    createTask db b1 = createTask db b2 := by
  cases h1 : ShouldBindJSON b1 with
  | none =>
    cases h2 : ShouldBindJSON b2 with
    | none => simp [createTask, h1, h2]
    | some t2 => rw [h1, h2] at h; simp at h
  | some t1 =>
    cases h2 : ShouldBindJSON b2 with
    | none => rw [h1, h2] at h; simp at h
    | some t2 =>
      rw [h1, h2] at h
      simp only [Option.map_some', Option.some.injEq] at h
      obtain ⟨e1, e2, e3, e4⟩ := (clearID_eq_iff t1 t2).1 h
      rw [createTask_bound db b1 t1 h1, createTask_bound db b2 t2 h2, e1, e2, e3, e4]

theorem setField_ID_none (v : JSON) (h : setField Task.zero Field.ID v = none) (t : Task) :
    setField t Field.ID v = none := by
  cases v <;> simp [setField] at h ⊢
  exact h

/-- C8, as the claim states it, fails: two payloads with the same title (and no
other member) that differ only in `id`, the string `"7"` and the number `7`,
are not treated alike: the first does not bind, is answered 400 and inserts
nothing; the second is answered 200 with the id 4 drawn by the store and
inserts a row. -/
theorem createTask_string_id_rejected :
    createTask sampleDB (some (.obj [("id", .str "7"), ("title", .str "T")])) =
        (⟨400, .error "Невалидный JSON"⟩, sampleDB) ∧
      createTask sampleDB (some (.obj [("id", .num 7), ("title", .str "T")])) =
        (⟨200, .id 4⟩,
          ⟨⟨sampleDB.store.rows ++ [⟨4, "T", "", ⟨1, 1, 1⟩, ""⟩], 5⟩,
            [.insertTask "T" "" Time.zero ""]⟩) := by
  decide

/-- C8, amended: an id supplied to Create that binds into `Task.ID` is
ignored.  For every store and every two tasks that agree on title,
description, due date and tags, whatever their ids, `createTaskInDB` returns
the same error or none, sends one `INSERT` with those four values and leaves
the same store; when it succeeds the id of both tasks is overwritten with the
value drawn from the sequence, which is the id of the row that was added.
`createTask` gives the same answer and the same store for any two payloads
bound to such tasks, and that answer is spelled out: 500 when the store
refuses the insert, and otherwise 200 with the id drawn from the sequence and
the new row appended.  Two payloads that differ only in the integer written
for `id` are answered alike, whether they bind or not; a payload whose `id`
is neither `null` nor an integer of 64 bits is answered 400 and nothing is
sent. -/
theorem create_ignores_supplied_id (db : DB) (t1 t2 : Task) (hT : t1.Title = t2.Title)
    (hD : t1.Description = t2.Description) (hDue : t1.DueDate = t2.DueDate)
    (hTags : t1.Tags = t2.Tags) :
    (createTaskInDB db t1).1 = (createTaskInDB db t2).1 ∧
      (createTaskInDB db t1).2.2 = (createTaskInDB db t2).2.2 ∧
      ((createTaskInDB db t1).1 = none →
        (createTaskInDB db t1).2.1.ID = db.store.nextId ∧
        (createTaskInDB db t2).2.1.ID = db.store.nextId ∧
        (createTaskInDB db t1).2.2.store.rows = db.store.rows ++
          [⟨db.store.nextId, t1.Title, t1.Description, t1.DueDate.toDate, t1.Tags⟩]) ∧
      (∀ b1 b2 : Option JSON, ShouldBindJSON b1 = some t1 → ShouldBindJSON b2 = some t2 →
        createTask db b1 = createTask db b2) ∧
      (createTaskInDB db t1).2.2.sent =
        db.sent ++ [.insertTask t1.Title t1.Description t1.DueDate t1.Tags] ∧
      (∀ b1 : Option JSON, ShouldBindJSON b1 = some t1 →
        createTask db b1 =
          if inInt4 db.store.nextId = false then
            (⟨500, .errorOf
                (.wrap "ошибка при создании задачи: " (.pq .sequenceLimitExceeded))⟩,
              ⟨db.store, db.sent ++ [.insertTask t1.Title t1.Description t1.DueDate t1.Tags]⟩)
          else if db.store.rows.any (fun r => r.id == db.store.nextId) = true then
            (⟨500, .errorOf (.wrap "ошибка при создании задачи: " (.pq .uniqueViolation))⟩,
              ⟨{ db.store with nextId := db.store.nextId + 1 },
                db.sent ++ [.insertTask t1.Title t1.Description t1.DueDate t1.Tags]⟩)
          else
            (⟨200, .id db.store.nextId⟩,
              ⟨⟨db.store.rows ++
                  [⟨db.store.nextId, t1.Title, t1.Description, t1.DueDate.toDate, t1.Tags⟩],
                db.store.nextId + 1⟩,
                db.sent ++ [.insertTask t1.Title t1.Description t1.DueDate t1.Tags]⟩)) ∧
      (∀ (ms1 ms2 : List (String × JSON)) (key : String) (n1 n2 : Int),
        lookupField key = some Field.ID →
        (-9223372036854775808 ≤ n1 ∧ n1 < 9223372036854775808) →
        (-9223372036854775808 ≤ n2 ∧ n2 < 9223372036854775808) →
        createTask db (some (.obj (ms1 ++ (key, .num n1) :: ms2))) =
          createTask db (some (.obj (ms1 ++ (key, .num n2) :: ms2)))) ∧
      (∀ (ms1 ms2 : List (String × JSON)) (key : String) (v : JSON),
        lookupField key = some Field.ID → setField Task.zero Field.ID v = none →
        createTask db (some (.obj (ms1 ++ (key, v) :: ms2))) =
          (⟨400, .error "Невалидный JSON"⟩, db)) := by
  have e1 := createTaskInDB_eq db t1
  have e2 := createTaskInDB_eq db t2
  rw [← hT, ← hD, ← hDue, ← hTags] at e2
  refine ⟨?_, ?_, ?_, ?_, ?_, ?_, ?_, ?_⟩
  · rw [e1, e2]; split_ifs <;> rfl
  · rw [e1, e2]; split_ifs <;> rfl
  · intro h
    rw [e1] at h ⊢
    rw [e2]
    split_ifs at h ⊢
    simp
  · intro b1 b2 h1 h2
    simp only [createTask, h1, h2, e1, e2]
    split_ifs <;> rfl
  · rw [e1]; split_ifs <;> rfl
  · intro b1 h1
    exact createTask_bound db b1 t1 h1
  · intro ms1 ms2 key n1 n2 hk hn1 hn2
    apply createTask_clearID
    simp only [ShouldBindJSON, decodeMembers_append]
    cases decodeMembers ms1 Task.zero with
    | none => rfl
    | some t =>
      simp only [Option.bind, decodeMembers, hk, setField, hn1, hn2, and_self, if_true]
      exact decodeMembers_clearID ms2 _ _ rfl
  · intro ms1 ms2 key v hk hv
    have hb : ShouldBindJSON (some (.obj (ms1 ++ (key, v) :: ms2))) = none := by
      simp only [ShouldBindJSON, decodeMembers_append]
      cases decodeMembers ms1 Task.zero with
      | none => rfl
      | some t => simp only [Option.bind, decodeMembers, hk, setField_ID_none v hv t]
    simp only [createTask, hb]

theorem create_ignores_supplied_id_witness :
    createTask sampleDB (some (.obj [("id", .num 7), ("title", .str "T")])) =
        createTask sampleDB (some (.obj [("title", .str "T"), ("id", .num 99)])) ∧
      createTask sampleDB (some (.obj [("id", .num 7), ("title", .str "T")])) =
        (⟨200, .id 4⟩,
          ⟨⟨sampleDB.store.rows ++ [⟨4, "T", "", ⟨1, 1, 1⟩, ""⟩], 5⟩,
            [.insertTask "T" "" Time.zero ""]⟩) :=
  have h := create_ignores_supplied_id sampleDB ⟨7, "T", "", Time.zero, ""⟩
    ⟨99, "T", "", Time.zero, ""⟩ rfl rfl rfl rfl
  ⟨h.2.2.2.1 _ _ (by decide) (by decide), h.2.2.2.2.2.1 _ (by decide)⟩

/-- C9, as the claim states it, fails: the payload with `dueDate:
"2024-03-01"` does not bind into `Task`; `createTask` answers 400 and sends
nothing. -/
theorem scenario_date_only_rejected :
    parseRFC3339 "2024-03-01" = none ∧
      parseStrictRFC3339 "2024-03-01" = none ∧
      createTask emptyDB (taskPayload "A" "" "2024-03-01" "x") =
        (⟨400, .error "Невалидный JSON"⟩, emptyDB) := by
  decide

/-- C9, amended: on an empty store whose first id is 1, `POST /task` with
`{title: "A", description: "", dueDate: "2024-03-01T00:00:00Z", tags: "x"}`
is bound and answers id 1; then `GET /task/1` answers those fields with id 1;
`GET /due/2024/3/1` answers the one-element sequence of that task; `DELETE
/task/1` removes one row and answers 200; and a last `GET /task/1` answers
404. -/
theorem scenario_create_get_list_delete :
    createTask emptyDB (taskPayload "A" "" "2024-03-01T00:00:00Z" "x") =
        (⟨200, .id 1⟩, ⟨⟨[⟨1, "A", "", ⟨2024, 3, 1⟩, "x"⟩], 2⟩,
          [.insertTask "A" "" ⟨2024, 3, 1, 0, 0, 0, 0, 0⟩ "x"]⟩) ∧
      (getOneTaskById (afterCreate "2024-03-01T00:00:00Z") "1").1 =
        ⟨200, .task ⟨1, "A", "", ⟨2024, 3, 1, 0, 0, 0, 0, 0⟩, "x"⟩⟩ ∧
      (getTasksByDueDate (afterGet "2024-03-01T00:00:00Z") "2024" "3" "1").1 =
        ⟨200, .tasks [⟨1, "A", "", ⟨2024, 3, 1, 0, 0, 0, 0, 0⟩, "x"⟩]⟩ ∧
      (deleteTaskFromDB (afterDue "2024-03-01T00:00:00Z") "1").1 = .ok 1 ∧
      (deleteTask (afterDue "2024-03-01T00:00:00Z") "1").1.status = 200 ∧
      (afterDelete "2024-03-01T00:00:00Z").store = ⟨[], 2⟩ ∧
      (getOneTaskById (afterDelete "2024-03-01T00:00:00Z") "1").1 =
        ⟨404, .error "Нет такого id\x27шника"⟩ := by
  decide

/-! ## A payload without a title -/

theorem setField_title (t t1 : Task) (f : Field) (v : JSON) (hf : f ≠ .Title)
    (h : setField t f v = some t1) : t1.Title = t.Title := by
  cases f <;> cases v <;> simp [setField] at h hf
  all_goals first
    | (rw [← h])
    | (obtain ⟨_, h⟩ := h; rw [← h])
    | (obtain ⟨_, _, h⟩ := h; rw [← h])

theorem decodeMembers_title (ms : List (String × JSON)) (t t1 : Task)
    (habsent : ∀ kv ∈ ms, lookupField kv.1 ≠ some Field.Title)
    (h : decodeMembers ms t = some t1) : t1.Title = t.Title := by
  induction ms generalizing t with
  | nil => simp [decodeMembers] at h; rw [h]
  | cons kv ms ih =>
    obtain ⟨key, v⟩ := kv
    have hk := habsent (key, v) (by simp)
    have hrest : ∀ kv ∈ ms, lookupField kv.1 ≠ some Field.Title :=
      fun kv hkv => habsent kv (by simp [hkv])
    unfold decodeMembers at h
    cases hl : lookupField key with
    | none => simp only [hl] at h; exact ih t hrest h
    | some f =>
      simp only [hl] at h
      have hf : f ≠ .Title := by
        intro hft; apply hk; simp [hl, hft]
      cases hs : setField t f v with
      | none => simp [hs] at h
      | some t2 =>
        simp only [hs] at h
        rw [ih t2 hrest h, setField_title t t2 f v hf hs]

/-- C10, as the claim states it, fails: a payload without `title` is bound,
the insert is sent and a row with the empty title is stored; the answer is
200 with the new id. -/
theorem createTask_without_title_accepted :
    createTask emptyDB (some (.obj [("description", .str ""),
        ("dueDate", .str "2024-03-01T00:00:00Z"), ("tags", .str "x")])) =
      (⟨200, .id 1⟩, ⟨⟨[⟨1, "", "", ⟨2024, 3, 1⟩, "x"⟩], 2⟩,
        [.insertTask "" "" ⟨2024, 3, 1, 0, 0, 0, 0, 0⟩ "x"]⟩) := by
  decide

/-- C10, amended: `title` is optional on creation: for every store and every
JSON object in which no member is decoded into `title`, `createTask` does what
it does for the same object with the member `title: ""` added; whenever the
object binds, the bound title is the empty string, the answer is not 400, and
the insert is sent with the empty title. -/
theorem createTask_title_absent (db : DB) (ms : List (String × JSON))
    (habsent : ∀ kv ∈ ms, lookupField kv.1 ≠ some Field.Title) :
    createTask db (some (.obj ms)) = createTask db (some (.obj (ms ++ [("title", .str "")]))) ∧
      (∀ t : Task, ShouldBindJSON (some (.obj ms)) = some t →
        t.Title = "" ∧ (createTask db (some (.obj ms))).1.status ≠ 400 ∧
        (createTask db (some (.obj ms))).2.sent =
          db.sent ++ [.insertTask "" t.Description t.DueDate t.Tags]) := by
  constructor
  · have hb : ShouldBindJSON (some (.obj (ms ++ [("title", .str "")]))) =
        ShouldBindJSON (some (.obj ms)) := by
      simp only [ShouldBindJSON, decodeMembers_append]
      cases hd : decodeMembers ms Task.zero with
      | none => rfl
      | some t =>
        have ht := decodeMembers_title ms Task.zero t habsent hd
        have hl : lookupField "title" = some Field.Title := by decide
        have ht2 : t.Title = "" := ht
        simp only [Option.bind, decodeMembers, hl, setField]
        cases t
        simp only at ht2
        subst ht2
        rfl
    unfold createTask
    rw [hb]
  · intro t ht
    have htitle : t.Title = "" := decodeMembers_title ms Task.zero t habsent ht
    obtain ⟨h1, h2⟩ := createTask_sent db _ t ht
    rw [htitle] at h2
    exact ⟨htitle, h1, h2⟩

theorem createTask_title_absent_witness :
    (createTask sampleDB (some (.obj [("tags", .str "x")]))).2.sent =
      [.insertTask "" "" Time.zero "x"] :=
  ((createTask_title_absent sampleDB [("tags", .str "x")] (by decide)).2
    ⟨0, "", "", Time.zero, "x"⟩ (by decide)).2.2

end TaskManager
